import Mathlib

set_option maxRecDepth 8000

/-!
Shallow embedding of `src/midi-reader/midi_reader.c` (together with the
data model of `src/midi_reader.h`): a MIDI byte-stream reader with
running-status accumulation, a bounded frame queue, skip-lists, channel
remapping, frame injection and statistics.

Machine integers are modelled as `Nat` (unsigned char / unsigned long
counters) and `Int` (the C `int` fields: file descriptors, push-back
bytes, channels, the byte fed to the state machine).  Fixed C arrays are
modelled as Lean lists: a frame's `data[128]` is a list of length 128,
the source table `sources[64]` a list of length 64, and the frame queue
keeps exactly the written prefix (`len` = list length), which is the
observable region.  I/O side effects (close/write/dprintf) are modelled
by returning the affected values explicitly: `midi_reader_reset_source`
returns the fds passed to `close`, `midi_frame_process` returns the list
of frames written to the dump sink and whether the user callback ran.
-/

/-- `midi_frame_state_t` from `midi_reader.h`. -/
inductive midi_frame_state_t where
  | MIDIF_IOERROR
  | MIDIF_NODATA
  | MIDIF_ERROR
  | MIDIF_NEXT
  | MIDIF_COMPLETE
  | MIDIF_SKIPPED
deriving DecidableEq, Repr

open midi_frame_state_t

/-- `MIDI_FRAME_MAX` -/
def MIDI_FRAME_MAX : Nat := 128

/-- `MIDI_READER_FRAMES_MAX` -/
def MIDI_READER_FRAMES_MAX : Nat := 1024

/-- `MIDI_READER_BUF_MAX` -/
def MIDI_READER_BUF_MAX : Nat := 256

/-- `MIDI_READER_IN_MAX` -/
def MIDI_READER_IN_MAX : Nat := 64

/-- `midi_frame_t`: current length and the `data[MIDI_FRAME_MAX]` array
(modelled as a list of length 128). -/
structure midi_frame_t where
  len : Nat
  data : List Nat
deriving DecidableEq, Repr

/-- `midi_reader_stats_t`: four unsigned counters. -/
structure midi_reader_stats_t where
  read : Nat
  errors : Nat
  skipped : Nat
  missed : Nat
deriving DecidableEq, Repr

/-- `midi_reader_source_t`.  `buf` holds the written prefix of the
256-byte input buffer (`buf_len` = `buf.length`). -/
structure midi_reader_source_t where
  fd : Int
  running : Nat
  buf : List Nat
  buf_offset : Nat
  push_back : Int
  current : midi_frame_t
  channel : Int
  stats : midi_reader_stats_t
deriving DecidableEq, Repr

/-- `midi_frames_t`: the bounded frame queue.  `frames` is the written
prefix of the 1024-slot array (`len` = `frames.length`), `offset` the
read offset. -/
structure midi_frames_t where
  offset : Nat
  frames : List midi_frame_t
deriving DecidableEq, Repr

/-- `midi_reader_flags_t` bit set, one Bool per flag bit. -/
structure midi_reader_flags_t where
  debug : Bool
  expand : Bool
  dumphex : Bool
deriving DecidableEq, Repr

/-- `midi_reader_t`.  The user callback takes the (mutable) frame and
returns an outcome and the frame as it left it. -/
structure midi_reader_t where
  flags : midi_reader_flags_t
  sources : List midi_reader_source_t
  nsources : Nat
  dumpfd : Int
  frames : midi_frames_t
  to_skip : Option (List Nat)
  callback : Option (midi_frame_t → midi_frame_state_t × midi_frame_t)
  total : midi_reader_stats_t

/-- The `midi_frame_len[128]` table from `midi_reader.h`. -/
def midi_frame_len : List Int :=
  [3, 3, 3, 3, 3, 3, 3, 3, 3, 3, 3, 3, 3, 3, 3, 3,
   3, 3, 3, 3, 3, 3, 3, 3, 3, 3, 3, 3, 3, 3, 3, 3,
   3, 3, 3, 3, 3, 3, 3, 3, 3, 3, 3, 3, 3, 3, 3, 3,
   3, 3, 3, 3, 3, 3, 3, 3, 3, 3, 3, 3, 3, 3, 3, 3,
   2, 2, 2, 2, 2, 2, 2, 2, 2, 2, 2, 2, 2, 2, 2, 2,
   2, 2, 2, 2, 2, 2, 2, 2, 2, 2, 2, 2, 2, 2, 2, 2,
   3, 3, 3, 3, 3, 3, 3, 3, 3, 3, 3, 3, 3, 3, 3, 3,
   -0xf0, 2, 3, 2, 1, 1, 1, 1,
   1, 1, 1, 1, 1, 1, 1, 1]

/-- `midi_frame_reset`: `mf->len = 0; mf->data[0] = 0;` -/
def midi_frame_reset (mf : midi_frame_t) : midi_frame_t :=
  { mf with len := 0, data := mf.data.set 0 0 }

/-- An all-zero frame, the state of `current` after `memset`. -/
def midi_frame_blank : midi_frame_t :=
  { len := 0, data := List.replicate MIDI_FRAME_MAX 0 }

/-- Zeroed statistics (`memset`). -/
def midi_reader_stats_zero : midi_reader_stats_t :=
  { read := 0, errors := 0, skipped := 0, missed := 0 }

/-- `midi_reader_reset_source`: `memset` the whole struct to zero, then,
when `to_close`, call `close (src->fd)` and set `fd = -1`; finally set
`push_back = -1` and `channel = -1`.  Because the `memset` comes first,
the fd handed to `close` is the zeroed one (0), never the stored handle.
The returned list holds the fds passed to `close`. -/
def midi_reader_reset_source (to_close : Bool) :
    midi_reader_source_t × List Int :=
  let wiped : midi_reader_source_t :=
    { fd := 0, running := 0, buf := [], buf_offset := 0, push_back := 0,
      current := midi_frame_blank, channel := 0,
      stats := midi_reader_stats_zero }
  let closed : List Int := if to_close then [wiped.fd] else []
  let wiped := if to_close then { wiped with fd := -1 } else wiped
  ({ wiped with push_back := -1, channel := -1 }, closed)

/-- The C skip loop: `for (p = to_skip; *p; p++) if (data0 == *p) ...`;
the list is scanned up to its first 0 entry (the terminator). -/
def midi_skip_match : List Nat → Nat → Bool
  | [], _ => false
  | p :: ps, b => if p = 0 then false else if b = p then true else midi_skip_match ps b

/-- The loop body of `midi_frame_expand_running`: starting at index `i`
of the saved copy `f`, append `f.data[0], f.data[i], f.data[i+1]` to
`mf` for `i = 1, 3, ...` while `i < f.len`.  The first argument is
recursion fuel (structural, so the definition computes); the entry call
passes `f.len`, which bounds the iteration count since `i` only
grows. -/
def midi_expand_loop (f : midi_frame_t) : Nat → midi_frame_t → Nat → midi_frame_t
  | 0, mf, _ => mf
  | fuel + 1, mf, i =>
    if i < f.len then
      let mf := { mf with data := mf.data.set mf.len (f.data.getD 0 0),
                          len := mf.len + 1 }
      let mf := { mf with data := mf.data.set mf.len (f.data.getD i 0),
                          len := mf.len + 1 }
      let mf := { mf with data := mf.data.set mf.len (f.data.getD (i + 1) 0),
                          len := mf.len + 1 }
      midi_expand_loop f fuel mf (i + 2)
    else mf

/-- `midi_frame_expand_running` (without the C `NULL` case): returns the
C result together with the frame as left in place.  The parity test
`(mf->len - 1) % 2` is computed in `Int` as in C (where `len == 0` gives
`-1`, a truthy value). -/
def midi_frame_expand_running (mf : midi_frame_t) : Bool × midi_frame_t :=
  if mf.data.getD 0 0 < 0x80 ∨ (mf.data.getD 0 0 > 0xef ∨ mf.len = 3) then
    (true, mf)
  else if ((mf.len : Int) - 1) % 2 ≠ 0 then
    (false, mf)
  else if (mf.len : Int) + ((mf.len : Int) - 1) / 2 > (MIDI_FRAME_MAX : Int) then
    (false, mf)
  else
    (true, midi_expand_loop mf mf.len (midi_frame_reset mf) 1)

/-- Result of `midi_frame_process`: outcome, updated reader, the frame
as mutated in place, the updated source, the frames written to the dump
sink, and whether the user callback was invoked. -/
structure midi_proc_result_t where
  st : midi_frame_state_t
  reader : midi_reader_t
  mf : midi_frame_t
  src : midi_reader_source_t
  dumped : List midi_frame_t
  cb_invoked : Bool

/-- The `/* dump */` and `/* store */` tail of `midi_frame_process`:
write the frame to the dump sink when one is configured, compact a
fully-drained queue, then store the frame or count it `missed`
(cumulative statistics only) when the queue is full. -/
def midi_frame_store (reader : midi_reader_t) (mf : midi_frame_t)
    (src : midi_reader_source_t) (cb : Bool) : midi_proc_result_t :=
  let dumped := if reader.dumpfd > -1 then [mf] else []
  let q := reader.frames
  let q := if q.frames.length = q.offset then ⟨0, []⟩ else q
  let reader :=
    if q.frames.length < MIDI_READER_FRAMES_MAX then
      { reader with frames := ⟨q.offset, q.frames ++ [mf]⟩ }
    else
      { reader with frames := q, total.missed := reader.total.missed + 1 }
  ⟨MIDIF_COMPLETE, reader, mf, src, dumped, cb⟩

/-- `midi_frame_process`: frame finalization.  Statistics are bumped on
source and reader, the skip list consulted, the channel remapped, the
frame expanded when the expand flag is set (result ignored, as in C),
the callback run, then the frame dumped and stored via
`midi_frame_store`. -/
def midi_frame_process (reader : midi_reader_t) (mf : midi_frame_t)
    (src : midi_reader_source_t) : midi_proc_result_t :=
  if mf.len = 0 then
    ⟨MIDIF_NODATA, reader, mf, src, [], false⟩
  else
    let src := { src with stats.read := src.stats.read + 1 }
    let reader := { reader with total.read := reader.total.read + 1 }
    let skipped :=
      match reader.to_skip with
      | none => false
      | some l => midi_skip_match l (mf.data.getD 0 0)
    if skipped then
      let src := { src with stats.skipped := src.stats.skipped + 1 }
      let reader := { reader with total.skipped := reader.total.skipped + 1 }
      ⟨MIDIF_SKIPPED, reader, mf, src, [], false⟩
    else
      let remapped := (mf.data.getD 0 0 &&& 0xF0) ||| (src.channel - 1).toNat
      let mf :=
        if src.channel > 0 ∧
            (0x80 ≤ mf.data.getD 0 0 ∧ mf.data.getD 0 0 ≤ 0xef) then
          { mf with data := mf.data.set 0 remapped }
        else mf
      let mf := if reader.flags.expand then (midi_frame_expand_running mf).2 else mf
      match reader.callback with
      | some cb =>
        let (st, mf) := cb mf
        if mf.len = 0 then
          ⟨MIDIF_NODATA, reader, mf, src, [], true⟩
        else if st = MIDIF_SKIPPED then
          let src := { src with stats.skipped := src.stats.skipped + 1 }
          let reader := { reader with total.skipped := reader.total.skipped + 1 }
          ⟨MIDIF_SKIPPED, reader, mf, src, [], true⟩
        else if st ≠ MIDIF_COMPLETE then
          let src := { src with stats.errors := src.stats.errors + 1 }
          let reader := { reader with total.errors := reader.total.errors + 1 }
          ⟨st, reader, mf, src, [], true⟩
        else
          midi_frame_store reader mf src true
      | none =>
        midi_frame_store reader mf src false

/-- Result of `midi_reader_push_byte`: outcome, updated reader and
source, dump-sink output and callback-invocation flag bubbled up from
`midi_frame_process`. -/
structure midi_push_result_t where
  st : midi_frame_state_t
  reader : midi_reader_t
  src : midi_reader_source_t
  dumped : List midi_frame_t
  cb_invoked : Bool

/-- `midi_reader_push_byte`: the byte-state-machine.  `data` is the C
`int` fed in (`-1` for no byte).  The in-progress frame is
`src.current`; `midi_frame_process` mutates it through the `mf` alias,
which is written back into the source here. -/
def midi_reader_push_byte (reader : midi_reader_t)
    (src : midi_reader_source_t) (data : Int) : midi_push_result_t :=
  if data < 0 then
    ⟨MIDIF_NODATA, reader, src, [], false⟩
  else if data > 0xFF then
    let src := { src with stats.errors := src.stats.errors + 1, running := 0 }
    let reader := { reader with total.errors := reader.total.errors + 1 }
    ⟨MIDIF_IOERROR, reader, src, [], false⟩
  else
    let b : Nat := data.toNat
    let mf := src.current
    if mf.len = MIDI_FRAME_MAX then
      let src := { src with running := 0, stats.errors := src.stats.errors + 1 }
      let reader := { reader with total.errors := reader.total.errors + 1 }
      ⟨MIDIF_ERROR, reader, src, [], false⟩
    else if src.running ≠ 0 ∧ b &&& 0x80 ≠ 0 then
      let src := { src with push_back := (b : Int), running := 0 }
      if mf.len = 0 ∨ ((mf.len : Int) - 1) % 2 ≠ 0 then
        let src := { src with stats.errors := src.stats.errors + 1 }
        let reader := { reader with total.errors := reader.total.errors + 1 }
        ⟨MIDIF_ERROR, reader, src, [], false⟩
      else
        let r := midi_frame_process reader mf src
        ⟨r.st, r.reader, { r.src with current := r.mf }, r.dumped, r.cb_invoked⟩
    else
      let src :=
        if mf.len = 0 then
          { src with running := if 0x80 ≤ b ∧ b ≤ 0xef then b else 0 }
        else src
      let mf := { mf with data := mf.data.set mf.len b, len := mf.len + 1 }
      let src := { src with current := mf }
      if mf.data.getD 0 0 &&& 0x80 = 0 then
        let src := { src with stats.errors := src.stats.errors + 1, running := 0 }
        let reader := { reader with total.errors := reader.total.errors + 1 }
        ⟨MIDIF_ERROR, reader, src, [], false⟩
      else
        let len := midi_frame_len.getD (mf.data.getD 0 0 - 0x80) 0
        if len = -0xf0 ∧ mf.len > 1 then
          if b = 0xf7 then
            let r := midi_frame_process reader mf src
            ⟨r.st, r.reader, { r.src with current := r.mf }, r.dumped, r.cb_invoked⟩
          else
            ⟨MIDIF_NEXT, reader, src, [], false⟩
        else if src.running = 0 ∧ len = (mf.len : Int) then
          let r := midi_frame_process reader mf src
          ⟨r.st, r.reader, { r.src with current := r.mf }, r.dumped, r.cb_invoked⟩
        else
          ⟨MIDIF_NEXT, reader, src, [], false⟩

/-- `midi_reader_init`: zero the reader, reset every source slot
(without closing), set `dumpfd = -1` and install the skip list. -/
def midi_reader_init (flags : midi_reader_flags_t)
    (to_skip : Option (List Nat)) : midi_reader_t :=
  { flags := flags,
    sources := List.replicate MIDI_READER_IN_MAX (midi_reader_reset_source false).1,
    nsources := 0,
    dumpfd := -1,
    frames := ⟨0, []⟩,
    to_skip := to_skip,
    callback := none,
    total := midi_reader_stats_zero }

/-- `midi_reader_add_source`: reject a negative fd or a full table;
succeed without change when the fd is already present; otherwise store
fd and channel (range-checked to 1..16, else -1) in the next slot. -/
def midi_reader_add_source (reader : midi_reader_t) (fd : Int)
    (channel : Int) : Bool × midi_reader_t :=
  if fd > -1 ∧ reader.nsources < MIDI_READER_IN_MAX then
    if (reader.sources.take reader.nsources).any (fun s => s.fd = fd) then
      (true, reader)
    else
      let s := reader.sources.getD reader.nsources (midi_reader_reset_source false).1
      let s := { s with fd := fd,
                        channel := if 1 ≤ channel ∧ channel ≤ 16 then channel else -1 }
      (true, { reader with sources := reader.sources.set reader.nsources s,
                           nsources := reader.nsources + 1 })
  else
    (false, reader)

/-- `midi_reader_remove_source`: find the fd among the active slots,
reset that slot (closing — which, after the `memset`, closes fd 0),
shift slots `i+1 .. 63` down one place (slot 63 keeps its old value,
and the final `midi_reader_reset_source_n (reader, 64, false)` is a
no-op), and decrement `nsources`.  Returns the C result, the new reader
and the fds passed to `close`. -/
def midi_reader_remove_source (reader : midi_reader_t) (fd : Int) :
    Bool × midi_reader_t × List Int :=
  if fd < 0 ∨ reader.nsources = 0 then
    (false, reader, [])
  else
    match (reader.sources.take reader.nsources).findIdx? (fun s => s.fd = fd) with
    | none => (false, reader, [])
    | some i =>
      let (rsrc, closed) := midi_reader_reset_source true
      let srcs := reader.sources.set i rsrc
      let srcs := srcs.take i ++ srcs.drop (i + 1) ++ srcs.drop (MIDI_READER_IN_MAX - 1)
      (true, { reader with sources := srcs, nsources := reader.nsources - 1 },
       closed)

/-- `midi_reader_set_dump_fd`. -/
def midi_reader_set_dump_fd (reader : midi_reader_t) (fd : Int) :
    Bool × midi_reader_t :=
  if fd > -1 then (true, { reader with dumpfd := fd }) else (false, reader)

/-- `midi_reader_set_callback`. -/
def midi_reader_set_callback (reader : midi_reader_t)
    (cb : Option (midi_frame_t → midi_frame_state_t × midi_frame_t)) :
    midi_reader_t :=
  { reader with callback := cb }

/-- `midi_reader_close`: reset (closing) every active source; close the
dump fd.  Returns the new reader and the fds passed to `close`.  Note
`nsources` itself is not cleared by the C code, only every slot. -/
def midi_reader_close (reader : midi_reader_t) : midi_reader_t × List Int :=
  if reader.nsources = 0 then (reader, [])
  else
    let (rsrc, closed1) := midi_reader_reset_source true
    let srcs := (List.range MIDI_READER_IN_MAX).map (fun i =>
      if i < reader.nsources then rsrc else reader.sources.getD i rsrc)
    let closed := (List.replicate reader.nsources closed1).flatten
    if reader.dumpfd > -1 then
      ({ reader with sources := srcs, dumpfd := -1 }, closed ++ [reader.dumpfd])
    else
      ({ reader with sources := srcs }, closed)

/-- `midi_reader_get_byte`: prefer the push-back byte, else the next
buffered byte, else -1. -/
def midi_reader_get_byte (src : midi_reader_source_t) :
    Int × midi_reader_source_t :=
  if src.push_back > -1 then
    (src.push_back, { src with push_back := -1 })
  else if src.buf.length > 0 ∧ src.buf_offset < src.buf.length then
    ((src.buf.getD src.buf_offset 0 : Int), { src with buf_offset := src.buf_offset + 1 })
  else
    (-1, src)

/-- One source's share of `midi_reader_read`: skip when a push-back
byte is pending, compact a drained buffer, then top it up (up to
capacity) with the bytes `xs` the OS delivers on this cycle. -/
def midi_source_read (src : midi_reader_source_t) (xs : List Nat) :
    midi_reader_source_t :=
  if src.push_back > -1 then src
  else
    let src :=
      if src.buf.length ≤ src.buf_offset then { src with buf := [], buf_offset := 0 }
      else src
    if MIDI_READER_BUF_MAX ≤ src.buf.length then src
    else { src with buf := src.buf ++ xs.take (MIDI_READER_BUF_MAX - src.buf.length) }

/-- `midi_reader_read`: top up every active source's buffer.  `input`
gives, per source index, the bytes its fd yields on this cycle. -/
def midi_reader_read (reader : midi_reader_t) (input : List (List Nat)) :
    midi_reader_t :=
  let srcs := (List.range MIDI_READER_IN_MAX).zipWith
    (fun i s => if i < reader.nsources then midi_source_read s (input.getD i []) else s)
    reader.sources
  { reader with sources := srcs }

/-- Set of outcomes after which `midi_reader_update` resets the
in-progress frame. -/
def midi_terminal_state (st : midi_frame_state_t) : Bool :=
  match st with
  | MIDIF_COMPLETE | MIDIF_ERROR | MIDIF_IOERROR | MIDIF_SKIPPED => true
  | MIDIF_NODATA | MIDIF_NEXT => false

/-- The per-source body of the `/* fill the queue */` loop of
`midi_reader_update`: take one byte, push it through the state machine,
and reset the in-progress frame on a terminal outcome. -/
def midi_update_step (reader : midi_reader_t) (idx : Nat) : midi_reader_t :=
  let s0 := reader.sources.getD idx (midi_reader_reset_source false).1
  let (b, s1) := midi_reader_get_byte s0
  let r := midi_reader_push_byte reader s1 b
  let s2 :=
    if midi_terminal_state r.st then
      { r.src with current := midi_frame_reset r.src.current }
    else r.src
  { r.reader with sources := r.reader.sources.set idx s2 }

/-- The rotating loop of `midi_reader_update`: visit `count` sources
starting at `src`, wrapping at `nsources`. -/
def midi_update_loop (reader : midi_reader_t) (src : Nat) : Nat → midi_reader_t
  | 0 => reader
  | count + 1 =>
    let idx := if reader.nsources ≤ src then 0 else src
    midi_update_loop (midi_update_step reader idx) (idx + 1) count

/-- `midi_reader_update`.  The C `static int start` is threaded
explicitly: `start` is its value before the call and the third result
its value after.  `input` models the bytes each source's fd yields. -/
def midi_reader_update (reader : midi_reader_t) (start : Int)
    (input : List (List Nat)) : Bool × midi_reader_t × Int :=
  let reader := midi_reader_read reader input
  let start : Int := if (reader.nsources : Int) ≤ start + 1 then 0 else start + 1
  let reader := midi_update_loop reader start.toNat reader.nsources
  (decide (reader.frames.frames.length > 0 ∧
           reader.frames.offset < reader.frames.frames.length),
   reader, start)

/-- `midi_reader_get_next`: run `update`; when it reports data, hand
out the frame at the read offset and advance it. -/
def midi_reader_get_next (reader : midi_reader_t) (start : Int)
    (input : List (List Nat)) :
    Option midi_frame_t × midi_reader_t × Int :=
  let (ok, r, st) := midi_reader_update reader start input
  if ok then
    (some (r.frames.frames.getD r.frames.offset midi_frame_blank),
     { r with frames.offset := r.frames.offset + 1 }, st)
  else
    (none, r, st)

/-- `midi_reader_clear_queue`. -/
def midi_reader_clear_queue (reader : midi_reader_t) : midi_reader_t :=
  if reader.frames.frames.length > 0 then { reader with frames := ⟨0, []⟩ }
  else reader

/-- The loop of `midi_reader_inject`: push each byte, stopping at the
first outcome other than `complete`/`next`.  Returns the count of bytes
consumed, the updated reader, and the throwaway source. -/
def midi_inject_loop (reader : midi_reader_t) (src : midi_reader_source_t)
    (i : Nat) : List Nat → Nat × midi_reader_t × midi_reader_source_t
  | [] => (i, reader, src)
  | b :: bs =>
    let r := midi_reader_push_byte reader src (b : Int)
    match r.st with
    | MIDIF_COMPLETE | MIDIF_NEXT => midi_inject_loop r.reader r.src (i + 1) bs
    | _ => (i, r.reader, r.src)

/-- `midi_reader_inject`: feed the frame's bytes through the state
machine on a throwaway reset source with `fd = -1`; if running-status
tracking is still active afterwards, push one synthesized 0xFE
active-sensing byte to finalize the pending frame (its outcome is
discarded). -/
def midi_reader_inject (reader : midi_reader_t) (mf : midi_frame_t) :
    Nat × midi_reader_t :=
  if mf.len = 0 then (0, reader)
  else
    let src := { (midi_reader_reset_source false).1 with fd := -1 }
    let (i, reader, src) := midi_inject_loop reader src 0 (mf.data.take mf.len)
    if i = mf.len ∧ src.running ≠ 0 then
      (i, (midi_reader_push_byte reader src 0xfe).reader)
    else
      (i, reader)

/-- `midi_reader_get_stats`. -/
def midi_reader_get_stats (reader : midi_reader_t) (n : Int) :
    Option midi_reader_stats_t :=
  if n < -1 ∨ (reader.nsources : Int) ≤ n then none
  else if n = -1 then some reader.total
  else some (reader.sources.getD n.toNat (midi_reader_reset_source false).1).stats

/-- `midi_reader_reset_stats`. -/
def midi_reader_reset_stats (reader : midi_reader_t) (n : Int) :
    midi_reader_t :=
  if n < -1 ∨ (reader.nsources : Int) ≤ n then reader
  else if n = -1 then { reader with total := midi_reader_stats_zero }
  else
    let s := reader.sources.getD n.toNat (midi_reader_reset_source false).1
    { reader with sources :=
        reader.sources.set n.toNat { s with stats := midi_reader_stats_zero } }

/-- Build a frame from a byte list, padding `data` to the 128-byte
array as `midi_frame_reset`/`memset` leaves it. -/
def midi_frame_of_bytes (l : List Nat) : midi_frame_t :=
  { len := l.length, data := l ++ List.replicate (MIDI_FRAME_MAX - l.length) 0 }

/-- Verification driver: feed a byte sequence one byte at a time
through `midi_reader_push_byte` on one source, collecting the outcomes
(the in-progress frame is not reset in between, as inside one
accumulation). -/
def midi_reader_feed (reader : midi_reader_t) (src : midi_reader_source_t) :
    List Int → List midi_frame_state_t × midi_reader_t × midi_reader_source_t
  | [] => ([], reader, src)
  | b :: bs =>
    let r := midi_reader_push_byte reader src b
    let (sts, reader, src) := midi_reader_feed r.reader r.src bs
    (r.st :: sts, reader, src)

/-- `midi_reader_push_byte` with the `mf->len == 0` disjunct of the
running-status boundary parity check removed — the variant the spec
calls the code equivalent to, because that arm is dead. -/
def midi_reader_push_byte_nodead (reader : midi_reader_t)
    (src : midi_reader_source_t) (data : Int) : midi_push_result_t :=
  if data < 0 then
    ⟨MIDIF_NODATA, reader, src, [], false⟩
  else if data > 0xFF then
    let src := { src with stats.errors := src.stats.errors + 1, running := 0 }
    let reader := { reader with total.errors := reader.total.errors + 1 }
    ⟨MIDIF_IOERROR, reader, src, [], false⟩
  else
    let b : Nat := data.toNat
    let mf := src.current
    if mf.len = MIDI_FRAME_MAX then
      let src := { src with running := 0, stats.errors := src.stats.errors + 1 }
      let reader := { reader with total.errors := reader.total.errors + 1 }
      ⟨MIDIF_ERROR, reader, src, [], false⟩
    else if src.running ≠ 0 ∧ b &&& 0x80 ≠ 0 then
      let src := { src with push_back := (b : Int), running := 0 }
      if ((mf.len : Int) - 1) % 2 ≠ 0 then
        let src := { src with stats.errors := src.stats.errors + 1 }
        let reader := { reader with total.errors := reader.total.errors + 1 }
        ⟨MIDIF_ERROR, reader, src, [], false⟩
      else
        let r := midi_frame_process reader mf src
        ⟨r.st, r.reader, { r.src with current := r.mf }, r.dumped, r.cb_invoked⟩
    else
      let src :=
        if mf.len = 0 then
          { src with running := if 0x80 ≤ b ∧ b ≤ 0xef then b else 0 }
        else src
      let mf := { mf with data := mf.data.set mf.len b, len := mf.len + 1 }
      let src := { src with current := mf }
      if mf.data.getD 0 0 &&& 0x80 = 0 then
        let src := { src with stats.errors := src.stats.errors + 1, running := 0 }
        let reader := { reader with total.errors := reader.total.errors + 1 }
        ⟨MIDIF_ERROR, reader, src, [], false⟩
      else
        let len := midi_frame_len.getD (mf.data.getD 0 0 - 0x80) 0
        if len = -0xf0 ∧ mf.len > 1 then
          if b = 0xf7 then
            let r := midi_frame_process reader mf src
            ⟨r.st, r.reader, { r.src with current := r.mf }, r.dumped, r.cb_invoked⟩
          else
            ⟨MIDIF_NEXT, reader, src, [], false⟩
        else if src.running = 0 ∧ len = (mf.len : Int) then
          let r := midi_frame_process reader mf src
          ⟨r.st, r.reader, { r.src with current := r.mf }, r.dumped, r.cb_invoked⟩
        else
          ⟨MIDIF_NEXT, reader, src, [], false⟩

/-- Reader states reachable through the public operations of the
library (claim C9 quantifies over these). -/
inductive MidiReachable : midi_reader_t → Prop where
  | init (flags : midi_reader_flags_t) (to_skip : Option (List Nat)) :
      MidiReachable (midi_reader_init flags to_skip)
  | add_source {r} (fd channel : Int) (h : MidiReachable r) :
      MidiReachable (midi_reader_add_source r fd channel).2
  | remove_source {r} (fd : Int) (h : MidiReachable r) :
      MidiReachable (midi_reader_remove_source r fd).2.1
  | set_dump_fd {r} (fd : Int) (h : MidiReachable r) :
      MidiReachable (midi_reader_set_dump_fd r fd).2
  | set_callback {r} cb (h : MidiReachable r) :
      MidiReachable (midi_reader_set_callback r cb)
  | close {r} (h : MidiReachable r) :
      MidiReachable (midi_reader_close r).1
  | update {r} (start : Int) (input : List (List Nat)) (h : MidiReachable r) :
      MidiReachable (midi_reader_update r start input).2.1
  | get_next {r} (start : Int) (input : List (List Nat)) (h : MidiReachable r) :
      MidiReachable (midi_reader_get_next r start input).2.1
  | clear_queue {r} (h : MidiReachable r) :
      MidiReachable (midi_reader_clear_queue r)
  | inject {r} (mf : midi_frame_t) (h : MidiReachable r) :
      MidiReachable (midi_reader_inject r mf).2
  | reset_stats {r} (n : Int) (h : MidiReachable r) :
      MidiReachable (midi_reader_reset_stats r n)

/-! ## List helper lemmas -/

theorem midi_take_set_of_le (l : List Nat) (i n : Nat) (a : Nat) (h : n ≤ i) :
    (l.set i a).take n = l.take n := by
  apply List.ext_getElem?
  intro m
  rw [List.getElem?_take, List.getElem?_take]
  split
  · next hm =>
    exact List.getElem?_set_ne (by omega)
  · rfl

theorem midi_take_set_succ (l : List Nat) (i : Nat) (a : Nat) (h : i < l.length) :
    (l.set i a).take (i + 1) = l.take i ++ [a] := by
  rw [List.set_eq_take_append_cons_drop, if_pos h]
  have hlen : (List.take i l).length = i := by
    simp [List.length_take]
    omega
  have : i + 1 = (List.take i l).length + 1 := by omega
  rw [this, List.take_append]
  rfl

theorem midi_getD_set_ne (l : List Nat) (i j a d : Nat) (h : i ≠ j) :
    (l.set i a).getD j d = l.getD j d := by
  rw [List.getD_eq_getElem?_getD, List.getD_eq_getElem?_getD,
    List.getElem?_set_ne h]

theorem midi_getD_set_self (l : List Nat) (i a d : Nat) (h : i < l.length) :
    (l.set i a).getD i d = a := by
  rw [List.getD_eq_getElem?_getD, List.getElem?_set_self h]
  rfl

/-! ## Demo readers used by closed (witness / counterexample) theorems -/

/-- A freshly initialized reader with no flags and no skip list. -/
def midi_demo_reader : midi_reader_t :=
  midi_reader_init ⟨false, false, false⟩ none

/-- `midi_demo_reader` with one source of handle 5. -/
def midi_demo_reader1 : midi_reader_t :=
  (midi_reader_add_source midi_demo_reader 5 (-1)).2

/-- `midi_demo_reader` with three sources of handles 5, 6, 7. -/
def midi_demo_reader3 : midi_reader_t :=
  (midi_reader_add_source
    (midi_reader_add_source
      (midi_reader_add_source midi_demo_reader 5 (-1)).2 6 (-1)).2 7 (-1)).2

/-- `midi_demo_reader` filled to capacity with handles 0..63. -/
def midi_demo_reader_full : midi_reader_t :=
  (List.range MIDI_READER_IN_MAX).foldl
    (fun r i => (midi_reader_add_source r (i : Int) (-1)).2) midi_demo_reader

/-- Source `s` with its statistics zeroed, as `memset` leaves them. -/
def midi_source_zero_stats (s : midi_reader_source_t) : midi_reader_source_t :=
  { s with stats := midi_reader_stats_zero }

/-- The source table with slot `i`'s statistics zeroed. -/
def midi_sources_zero_stats_at (l : List midi_reader_source_t) (i : Nat) :
    List midi_reader_source_t :=
  l.set i (midi_source_zero_stats (l.getD i (midi_reader_reset_source false).1))

/-! ## C10: reset-stats -/

/-- C10: `midi_reader_reset_stats` with the sentinel -1 zeroes only the
cumulative counters (sources untouched); with `0 <= n < nsources` it
replaces only source `n`'s statistics by zero (total and every other
source untouched); any other index changes nothing. -/
theorem midi_reader_reset_stats_spec (r : midi_reader_t) (n : Int) :
    midi_reader_reset_stats r (-1) = { r with total := midi_reader_stats_zero } ∧
    (0 ≤ n → n < (r.nsources : Int) →
      midi_reader_reset_stats r n =
        { r with sources := midi_sources_zero_stats_at r.sources n.toNat }) ∧
    ((n < -1 ∨ (r.nsources : Int) ≤ n) → midi_reader_reset_stats r n = r) := by
  refine ⟨?_, ?_, ?_⟩
  · rw [midi_reader_reset_stats]
    rw [if_neg (by omega), if_pos rfl]
  · intro h0 hn
    rw [midi_reader_reset_stats]
    rw [if_neg (by omega), if_neg (by omega)]
    rfl
  · intro h
    rw [midi_reader_reset_stats]
    rw [if_pos (by omega)]

/-- Witness for C10 at a concrete reader with one source and `n = 0`. -/
theorem midi_reader_reset_stats_spec_witness :
    (0 : Int) ≤ 0 ∧ (0 : Int) < (midi_demo_reader1.nsources : Int) ∧
    midi_reader_reset_stats midi_demo_reader1 0 =
      { midi_demo_reader1 with sources := midi_sources_zero_stats_at midi_demo_reader1.sources 0 } :=
  ⟨by omega, by decide,
   (midi_reader_reset_stats_spec midi_demo_reader1 0).2.1 (by omega) (by decide)⟩

/-! ## C8: add-source idempotence and capacity -/

/-- C8 (amended): when the reader is below capacity, adding an
already-present handle is an idempotent success (true, reader
unchanged); at capacity (64 sources) `midi_reader_add_source` returns
false and changes nothing, whether or not the handle is present. -/
theorem midi_reader_add_source_spec (r : midi_reader_t) (fd channel : Int)
    (hfd : fd > -1) :
    (r.nsources < MIDI_READER_IN_MAX →
      ((r.sources.take r.nsources).any fun s => s.fd = fd) = true →
      midi_reader_add_source r fd channel = (true, r)) ∧
    (MIDI_READER_IN_MAX ≤ r.nsources →
      midi_reader_add_source r fd channel = (false, r)) := by
  constructor
  · intro hcap hmem
    rw [midi_reader_add_source, if_pos ⟨hfd, hcap⟩, if_pos hmem]
  · intro hcap
    rw [midi_reader_add_source, if_neg (by omega)]

/-- Witness for C8 on the one-source demo reader and its handle 5. -/
theorem midi_reader_add_source_spec_witness :
    midi_demo_reader1.nsources < MIDI_READER_IN_MAX ∧
    midi_reader_add_source midi_demo_reader1 5 3 = (true, midi_demo_reader1) :=
  ⟨by decide,
   (midi_reader_add_source_spec midi_demo_reader1 5 3 (by decide)).1
     (by decide) (by decide)⟩

/-- Counterexample to C8 as stated: on a reader at capacity whose
source table contains handle 7, `midi_reader_add_source` returns false
(the capacity test precedes the presence scan), not the claimed
idempotent true. -/
theorem midi_reader_add_source_full_counterexample :
    ((midi_demo_reader_full.sources.take midi_demo_reader_full.nsources).any
      fun s => s.fd = 7) = true ∧
    (midi_reader_add_source midi_demo_reader_full 7 3).1 = false := by
  constructor
  · decide
  · decide

/-! ## C4: remove-source (code bug: wrong fd closed) -/

/-- C4: on the failing input (a reader holding handle 5, then handles
5, 6, 7), `midi_reader_remove_source` returns true and compacts the
table preserving order, but the fd it passes to `close` is 0 — the
`memset` in `midi_reader_reset_source` zeroes the struct before
`close (src->fd)` runs — never the removed handle. -/
theorem midi_reader_remove_source_closes_zero :
    (midi_reader_remove_source midi_demo_reader1 5).1 = true ∧
    (midi_reader_remove_source midi_demo_reader1 5).2.1.nsources = 0 ∧
    (midi_reader_remove_source midi_demo_reader1 5).2.2 = [0] ∧
    ((0 : Int) ≠ 5) ∧
    (midi_reader_remove_source midi_demo_reader3 6).1 = true ∧
    (midi_reader_remove_source midi_demo_reader3 6).2.2 = [0] ∧
    ((midi_reader_remove_source midi_demo_reader3 6).2.1.sources.take 2).map
      (fun s => s.fd) = [5, 7] ∧
    (midi_reader_remove_source midi_demo_reader3 6).2.1.nsources = 2 := by
  refine ⟨by decide, by decide, by decide, by decide, by decide, by decide, ?_, by decide⟩
  decide

/-! ## C3: expansion on short frames -/

/-- C3 (amended): for a frame whose first byte is a channel-voice
status, expansion is a no-op success only at length exactly 3; at
length 2 it fails (returns false, frame unchanged); at length 1 it
reports success but rewrites the frame to the empty (reset) frame. -/
theorem midi_frame_expand_short_spec (mf : midi_frame_t)
    (h0 : 0x80 ≤ mf.data.getD 0 0) (h1 : mf.data.getD 0 0 ≤ 0xef) :
    (mf.len = 3 → midi_frame_expand_running mf = (true, mf)) ∧
    (mf.len = 2 → midi_frame_expand_running mf = (false, mf)) ∧
    (mf.len = 1 → midi_frame_expand_running mf = (true, midi_frame_reset mf)) := by
  refine ⟨?_, ?_, ?_⟩
  · intro h
    rw [midi_frame_expand_running, if_pos (Or.inr (Or.inr h))]
  · intro h
    rw [midi_frame_expand_running, if_neg (by omega), h]
    rw [if_pos (by decide)]
  · intro h
    rw [midi_frame_expand_running, if_neg (by omega), h]
    rw [if_neg (by decide), if_neg (by decide)]
    show (true, midi_expand_loop mf 1 (midi_frame_reset mf) 1) = _
    rw [midi_expand_loop, if_neg (by omega)]

/-- Witness for C3 on a concrete 3-byte note-on frame. -/
theorem midi_frame_expand_short_spec_witness :
    (midi_frame_of_bytes [0x90, 10, 20]).len = 3 ∧
    midi_frame_expand_running (midi_frame_of_bytes [0x90, 10, 20]) =
      (true, midi_frame_of_bytes [0x90, 10, 20]) :=
  ⟨by decide,
   (midi_frame_expand_short_spec (midi_frame_of_bytes [0x90, 10, 20])
     (by decide) (by decide)).1 (by decide)⟩

/-- Counterexample to C3 as stated: a 2-byte channel-voice frame makes
expansion return false (not the claimed success), and a 1-byte frame is
not left unchanged (it is emptied). -/
theorem midi_frame_expand_short_counterexample :
    (midi_frame_expand_running (midi_frame_of_bytes [0xC0, 0x40])).1 = false ∧
    (midi_frame_expand_running (midi_frame_of_bytes [0x90])).2 ≠
      midi_frame_of_bytes [0x90] := by
  constructor
  · decide
  · decide

/-! ## C7: skip-list -/

/-- Statistics with `read` and `skipped` bumped once, as frame
finalization leaves them on a skipped frame. -/
def midi_stats_read_skipped (st : midi_reader_stats_t) : midi_reader_stats_t :=
  { st with read := st.read + 1, skipped := st.skipped + 1 }

/-- C7: when a skip list is configured and the frame's first byte
matches, finalization returns `skipped`, bumps `read` and `skipped` by
exactly one on source and cumulative statistics, and the frame is
neither stored in the queue (the reader's queue field is untouched) nor
written to the dump sink (no dump output) nor passed to the callback. -/
theorem midi_frame_process_skip_spec (r : midi_reader_t) (mf : midi_frame_t)
    (src : midi_reader_source_t) (l : List Nat)
    (hs : r.to_skip = some l)
    (hm : midi_skip_match l (mf.data.getD 0 0) = true)
    (hlen : mf.len ≠ 0) :
    midi_frame_process r mf src =
      ⟨MIDIF_SKIPPED, { r with total := midi_stats_read_skipped r.total }, mf,
       { src with stats := midi_stats_read_skipped src.stats }, [], false⟩ := by
  rw [midi_frame_process, if_neg hlen, hs]
  simp only [hm, midi_stats_read_skipped, if_true]

/-- Witness for C7: a reader skipping 0xF8 and an incoming 0xF8 frame. -/
theorem midi_frame_process_skip_spec_witness :
    (midi_reader_init ⟨false, false, false⟩ (some [0xF8, 0])).to_skip = some [0xF8, 0] ∧
    midi_frame_process (midi_reader_init ⟨false, false, false⟩ (some [0xF8, 0]))
      (midi_frame_of_bytes [0xF8]) (midi_reader_reset_source false).1 =
      ⟨MIDIF_SKIPPED,
       { midi_reader_init ⟨false, false, false⟩ (some [0xF8, 0]) with
          total := midi_stats_read_skipped (midi_reader_init ⟨false, false, false⟩ (some [0xF8, 0])).total },
       midi_frame_of_bytes [0xF8],
       { (midi_reader_reset_source false).1 with
          stats := midi_stats_read_skipped (midi_reader_reset_source false).1.stats },
       [], false⟩ :=
  ⟨rfl,
   midi_frame_process_skip_spec _ _ _ [0xF8, 0] rfl (by decide) (by decide)⟩

/-! ## Byte-state-machine single-push lemmas -/

/-- A byte with value in 0x80..0xFF has its high bit set. -/
theorem midi_hi_bit_set : ∀ b < 0x100, 0x80 ≤ b → b &&& 0x80 ≠ 0 := by decide

/-- A byte below 0x80 has its high bit clear. -/
theorem midi_hi_bit_clear : ∀ b < 0x80, b &&& 0x80 = 0 := by decide

/-- No channel-voice status row of `midi_frame_len` holds the sysex
marker -0xf0. -/
theorem midi_table_not_sysex : ∀ n < 0x70, midi_frame_len.getD n 0 ≠ -0xf0 := by
  decide

/-- Pushing a channel-voice status byte on a source with an empty
in-progress frame and no running status: outcome `next`, running-status
tracking enabled, the byte appended. -/
theorem midi_push_first_status (r : midi_reader_t) (src : midi_reader_source_t)
    (b : Nat) (hrun : src.running = 0) (hlen : src.current.len = 0)
    (hdata : 0 < src.current.data.length)
    (hb1 : 0x80 ≤ b) (hb2 : b ≤ 0xef) :
    midi_reader_push_byte r src (b : Int) =
      ⟨MIDIF_NEXT, r,
       { src with running := b,
                  current := ⟨1, src.current.data.set 0 b⟩ }, [], false⟩ := by
  have h1 : ¬((b : Int) < 0) := by omega
  have h2 : ¬((b : Int) > 0xFF) := by omega
  have htn : (b : Int).toNat = b := Int.toNat_natCast b
  have hget : (src.current.data.set 0 b)[0]?.getD 0 = b := by
    rw [← List.getD_eq_getElem?_getD]
    exact midi_getD_set_self _ _ _ _ hdata
  have hbit : ¬(b &&& 0x80 = 0) := midi_hi_bit_set b (by omega) hb1
  have hbne : ¬(b = 0) := by omega
  simp [midi_reader_push_byte, h1, h2, htn, hlen, hrun, hget, hbit, hbne,
    hb1, hb2, MIDI_FRAME_MAX]

/-- Pushing a data byte while running status is active and the frame
already holds its status byte: outcome `next`, byte appended, nothing
else changes. -/
theorem midi_push_data_next (r : midi_reader_t) (src : midi_reader_source_t)
    (d : Nat) (hd : d < 0x80) (hrun : src.running ≠ 0)
    (hlen1 : 1 ≤ src.current.len) (hlen2 : src.current.len < MIDI_FRAME_MAX)
    (hd0a : 0x80 ≤ src.current.data.getD 0 0)
    (hd0b : src.current.data.getD 0 0 ≤ 0xef) :
    midi_reader_push_byte r src (d : Int) =
      ⟨MIDIF_NEXT, r,
       { src with current := ⟨src.current.len + 1,
           src.current.data.set src.current.len d⟩ }, [], false⟩ := by
  have h1 : ¬((d : Int) < 0) := by omega
  have h2 : ¬((d : Int) > 0xFF) := by omega
  have htn : (d : Int).toNat = d := Int.toNat_natCast d
  have hsz : MIDI_FRAME_MAX = 128 := rfl
  rw [hsz] at hlen2
  have h3 : ¬(src.current.len = MIDI_FRAME_MAX) := by
    rw [hsz]
    omega
  have hdb : d &&& 0x80 = 0 := midi_hi_bit_clear d hd
  have h5 : ¬(src.current.len = 0) := by omega
  have hget : (src.current.data.set src.current.len d)[0]?.getD 0 =
      src.current.data[0]?.getD 0 := by
    rw [← List.getD_eq_getElem?_getD, ← List.getD_eq_getElem?_getD]
    exact midi_getD_set_ne _ _ _ _ _ (by omega)
  have hd0a' : 0x80 ≤ src.current.data[0]?.getD 0 := by
    rw [← List.getD_eq_getElem?_getD]
    exact hd0a
  have hd0b' : src.current.data[0]?.getD 0 ≤ 0xef := by
    rw [← List.getD_eq_getElem?_getD]
    exact hd0b
  have hbit : ¬(src.current.data[0]?.getD 0 &&& 0x80 = 0) :=
    midi_hi_bit_set _ (by omega) hd0a'
  have hns : ¬(midi_frame_len[src.current.data[0]?.getD 0 - 0x80]?.getD 0 = -0xf0) := by
    rw [← List.getD_eq_getElem?_getD]
    exact midi_table_not_sysex _ (by omega)
  simp [midi_reader_push_byte, h1, h2, htn, h3, hdb, h5, hget, hbit, hns, hrun]

/-- Statistics with `read` bumped once (frame finalization step 1). -/
def midi_stats_bump_read (st : midi_reader_stats_t) : midi_reader_stats_t :=
  { st with read := st.read + 1 }

/-- Statistics with `missed` bumped `k` times. -/
def midi_stats_add_missed (st : midi_reader_stats_t) (k : Nat) :
    midi_reader_stats_t :=
  { st with missed := st.missed + k }

/-- The dump-sink output of one finalization. -/
def midi_dump_out (r : midi_reader_t) (mf : midi_frame_t) : List midi_frame_t :=
  if r.dumpfd > -1 then [mf] else []

/-- The queue after the `/* store */` step, together with the number of
`missed` increments (0 or 1). -/
def midi_queue_store (q : midi_frames_t) (mf : midi_frame_t) :
    midi_frames_t × Nat :=
  let q := if q.frames.length = q.offset then ⟨0, []⟩ else q
  if q.frames.length < MIDI_READER_FRAMES_MAX then
    (⟨q.offset, q.frames ++ [mf]⟩, 0)
  else
    (q, 1)

/-- `midi_frame_store` in terms of `midi_queue_store` and
`midi_dump_out`. -/
theorem midi_frame_store_spec (r : midi_reader_t) (mf : midi_frame_t)
    (src : midi_reader_source_t) (cb : Bool) :
    midi_frame_store r mf src cb =
      ⟨MIDIF_COMPLETE,
       { r with frames := (midi_queue_store r.frames mf).1,
                total := midi_stats_add_missed r.total (midi_queue_store r.frames mf).2 },
       mf, src, midi_dump_out r mf, cb⟩ := by
  rw [midi_frame_store, midi_queue_store, midi_dump_out, midi_stats_add_missed]
  by_cases hc : r.frames.frames.length = r.frames.offset
  · simp only [hc, if_pos rfl]
    split_ifs with h1 <;> rfl
  · simp only [if_neg hc]
    split_ifs with h1 <;> rfl

/-- Frame finalization when nothing intervenes: no skip match, no
channel remap, no (effective) expansion, no callback.  The outcome is
`complete`, `read` is bumped on source and cumulative statistics, the
frame is dumped and stored (or counted `missed`). -/
theorem midi_frame_process_complete (r : midi_reader_t) (mf : midi_frame_t)
    (src : midi_reader_source_t)
    (hlen : mf.len ≠ 0)
    (hskip : ∀ l, r.to_skip = some l → midi_skip_match l (mf.data.getD 0 0) = false)
    (hch : src.channel ≤ 0)
    (hexp : r.flags.expand = false ∨ (midi_frame_expand_running mf).2 = mf)
    (hcb : r.callback = none) :
    midi_frame_process r mf src =
      ⟨MIDIF_COMPLETE,
       { r with frames := (midi_queue_store r.frames mf).1,
                total := midi_stats_add_missed (midi_stats_bump_read r.total) (midi_queue_store r.frames mf).2 },
       mf,
       { src with stats := midi_stats_bump_read src.stats },
       midi_dump_out r mf, false⟩ := by
  rw [midi_frame_process, if_neg hlen]
  have hch' : ¬(src.channel > 0 ∧
      (0x80 ≤ mf.data.getD 0 0 ∧ mf.data.getD 0 0 ≤ 0xef)) := by
    intro h
    omega
  have hmf : (if r.flags.expand then (midi_frame_expand_running mf).2 else mf) = mf := by
    rcases hexp with h | h
    · rw [h]
      rfl
    · split_ifs with hf
      · exact h
      · rfl
  rcases hts : r.to_skip with _ | l
  · simp only [hts, hch', if_false, if_neg hch', hmf, hcb]
    rw [midi_frame_store_spec]
    rfl
  · have hm := hskip l hts
    simp only [hts, hm, hch', if_false, if_neg hch', hmf, hcb]
    rw [midi_frame_store_spec]
    rfl

/-- The running-status boundary: a status byte arriving while tracking
is active, with an odd accumulated length (status byte plus whole data
pairs), pushes the byte back, clears tracking, and hands the frame to
finalization. -/
theorem midi_push_boundary (r : midi_reader_t) (src : midi_reader_source_t)
    (t : Nat) (ht1 : 0x80 ≤ t) (ht2 : t ≤ 0xFF)
    (hrun : src.running ≠ 0) (hlen128 : src.current.len ≠ MIDI_FRAME_MAX)
    (hodd : src.current.len % 2 = 1) :
    midi_reader_push_byte r src (t : Int) =
      (let p := midi_frame_process r src.current
        { src with push_back := (t : Int), running := 0 };
       ⟨p.st, p.reader, { p.src with current := p.mf }, p.dumped, p.cb_invoked⟩) := by
  have h1 : ¬((t : Int) < 0) := by omega
  have h2 : ¬((t : Int) > 0xFF) := by omega
  have htn : (t : Int).toNat = t := Int.toNat_natCast t
  have hbit : ¬(t &&& 0x80 = 0) := midi_hi_bit_set t (by omega) ht1
  have h5 : ¬(src.current.len = 0) := by omega
  have hpar : ¬(((src.current.len : Int) - 1) % 2 ≠ 0) := by omega
  simp [midi_reader_push_byte, h1, h2, htn, hlen128, hrun, hbit, h5, hpar]

/-- Below capacity, storing appends the frame at the end of the
unconsumed region and counts nothing `missed`. -/
theorem midi_queue_store_below_cap (q : midi_frames_t) (mf : midi_frame_t)
    (hoff : q.offset ≤ q.frames.length)
    (hcap : q.frames.length < MIDI_READER_FRAMES_MAX) :
    (midi_queue_store q mf).2 = 0 ∧
    (midi_queue_store q mf).1.frames.drop (midi_queue_store q mf).1.offset =
      q.frames.drop q.offset ++ [mf] := by
  obtain ⟨qo, qf⟩ := q
  rw [midi_queue_store]
  have h1024 : (0 : Nat) < MIDI_READER_FRAMES_MAX := by
    rw [MIDI_READER_FRAMES_MAX]
    omega
  by_cases hc : qf.length = qo
  · have hnil : qf.drop qo = [] := List.drop_eq_nil_of_le (by omega)
    simp [hc, hnil, h1024]
  · simp only [if_neg hc, if_pos hcap]
    exact ⟨by trivial, List.drop_append_of_le_length hoff⟩

/-- Storing into a queue with read offset 0: append while below
capacity, else drop the frame and count one `missed`. -/
theorem midi_queue_store_zero_offset (q : midi_frames_t) (mf : midi_frame_t)
    (h0 : q.offset = 0) :
    midi_queue_store q mf =
      if q.frames.length < MIDI_READER_FRAMES_MAX then (⟨0, q.frames ++ [mf]⟩, 0)
      else (⟨0, q.frames⟩, 1) := by
  obtain ⟨qo, qf⟩ := q
  simp only at h0
  subst h0
  rw [midi_queue_store]
  have h1024 : (0 : Nat) < MIDI_READER_FRAMES_MAX := by
    rw [MIDI_READER_FRAMES_MAX]
    omega
  by_cases hc : qf.length = 0
  · have hnil : qf = [] := List.length_eq_zero.mp hc
    simp [hnil, h1024]
  · simp only [if_neg hc]

/-- Unfolding of the feed driver on a cons cell. -/
theorem midi_reader_feed_cons (r : midi_reader_t) (src : midi_reader_source_t)
    (b : Int) (bs : List Int) :
    midi_reader_feed r src (b :: bs) =
      ((midi_reader_push_byte r src b).st ::
         (midi_reader_feed (midi_reader_push_byte r src b).reader
           (midi_reader_push_byte r src b).src bs).1,
       (midi_reader_feed (midi_reader_push_byte r src b).reader
         (midi_reader_push_byte r src b).src bs).2) := rfl

/-- Sequential writes of a byte list into the array starting at index
`i`: the frame data as the state machine leaves it after appending the
list. -/
def midi_list_write (l : List Nat) (i : Nat) : List Nat → List Nat
  | [] => l
  | d :: ds => midi_list_write (l.set i d) (i + 1) ds

theorem midi_list_write_length :
    ∀ (ds : List Nat) (l : List Nat) (i : Nat),
      (midi_list_write l i ds).length = l.length := by
  intro ds
  induction ds with
  | nil => intro l i; rfl
  | cons d ds ih =>
    intro l i
    rw [midi_list_write, ih, List.length_set]

theorem midi_list_write_getD_lt :
    ∀ (ds : List Nat) (l : List Nat) (i j : Nat), j < i →
      (midi_list_write l i ds).getD j 0 = l.getD j 0 := by
  intro ds
  induction ds with
  | nil => intro l i j h; rfl
  | cons d ds ih =>
    intro l i j h
    rw [midi_list_write, ih _ _ _ (by omega), midi_getD_set_ne _ _ _ _ _ (by omega)]

theorem midi_list_write_take :
    ∀ (ds : List Nat) (l : List Nat) (i : Nat), i + ds.length ≤ l.length →
      (midi_list_write l i ds).take (i + ds.length) = l.take i ++ ds := by
  intro ds
  induction ds with
  | nil => intro l i h; simp [midi_list_write]
  | cons d ds ih =>
    intro l i h
    rw [midi_list_write]
    have h1 : i + (d :: ds).length = (i + 1) + ds.length := by
      simp
      omega
    rw [h1, ih _ _ (by simp at h ⊢; omega)]
    rw [midi_take_set_succ _ _ _ (by simp at h; omega)]
    simp

/-- Feeding a list of data bytes while running status is active:
every outcome is `next`, the reader is untouched, and the bytes are
appended to the in-progress frame in order. -/
theorem midi_feed_data_run :
    ∀ (ds : List Nat) (r : midi_reader_t) (src : midi_reader_source_t),
      (∀ d ∈ ds, d < 0x80) →
      src.running ≠ 0 →
      1 ≤ src.current.len →
      src.current.len + ds.length ≤ MIDI_FRAME_MAX →
      0x80 ≤ src.current.data.getD 0 0 →
      src.current.data.getD 0 0 ≤ 0xef →
      midi_reader_feed r src (ds.map (Nat.cast : Nat → Int)) =
        (List.replicate ds.length MIDIF_NEXT, r,
         { src with current :=
            ⟨src.current.len + ds.length,
             midi_list_write src.current.data src.current.len ds⟩ }) := by
  intro ds
  induction ds with
  | nil => intro r src _ _ _ _ _ _; rfl
  | cons d ds ih =>
    intro r src hds hrun hlen1 hcap hd0a hd0b
    rw [List.map_cons, midi_reader_feed_cons]
    have hM : MIDI_FRAME_MAX = 128 := rfl
    rw [midi_push_data_next r src d (hds d (by simp)) hrun hlen1
      (by simp [hM] at hcap ⊢; omega) hd0a hd0b]
    simp only
    have hg : ((src.current.data.set src.current.len d) : List Nat)[0]?.getD 0 =
        src.current.data[0]?.getD 0 := by
      rw [← List.getD_eq_getElem?_getD, ← List.getD_eq_getElem?_getD]
      exact midi_getD_set_ne _ _ _ _ _ (by omega)
    have ihx := ih r
      { src with current := ⟨src.current.len + 1,
          src.current.data.set src.current.len d⟩ }
      (fun x hx => hds x (by simp [hx]))
      (by simpa using hrun)
      (by simp)
      (by simp [hM] at hcap ⊢; omega)
      (by simpa [hg] using hd0a)
      (by simpa [hg] using hd0b)
    simp only at ihx
    rw [ihx]
    have harith : src.current.len + 1 + ds.length =
        src.current.len + (ds.length + 1) := by omega
    simp only [List.length_cons, List.replicate_succ, midi_list_write, harith]

/-! ## C1: fixed-length channel-voice messages -/

/-- `midi_getD_set_self` in the `getElem?` normal form that `simp`
produces. -/
theorem midi_getE_set_self (l : List Nat) (i a : Nat) (h : i < l.length) :
    (l.set i a)[i]?.getD 0 = a := by
  rw [← List.getD_eq_getElem?_getD]
  exact midi_getD_set_self _ _ _ _ h

/-- `midi_getD_set_ne` in the `getElem?` normal form. -/
theorem midi_getE_set_ne (l : List Nat) (i j a : Nat) (h : i ≠ j) :
    (l.set i a)[j]?.getD 0 = l[j]?.getD 0 := by
  rw [← List.getD_eq_getElem?_getD, ← List.getD_eq_getElem?_getD]
  exact midi_getD_set_ne _ _ _ _ _ h

/-- C1 (amended): feeding a fresh source a channel-voice status byte
and exactly the table's worth of data bytes yields outcome `next` on
every byte, the final one included (the fixed-length finalize branch
requires running-status tracking to be off, which never holds for
channel-voice statuses); the 3-byte message finalizes with `complete`
only when a following status byte arrives. -/
theorem midi_fixed_length_feed_spec (r : midi_reader_t)
    (src : midi_reader_source_t) (s d1 d2 : Nat)
    (hsrc1 : src.running = 0) (hsrc2 : src.current.len = 0)
    (hsrc3 : 0 < src.current.data.length)
    (hd1 : d1 < 0x80) (hd2 : d2 < 0x80) :
    ((0x80 ≤ s ∧ s ≤ 0xbf) ∨ (0xe0 ≤ s ∧ s ≤ 0xef) →
      (midi_reader_feed r src [(s : Int), (d1 : Int), (d2 : Int)]).1 =
        [MIDIF_NEXT, MIDIF_NEXT, MIDIF_NEXT]) ∧
    (0xc0 ≤ s ∧ s ≤ 0xdf →
      (midi_reader_feed r src [(s : Int), (d1 : Int)]).1 =
        [MIDIF_NEXT, MIDIF_NEXT]) ∧
    (∀ t : Nat, (0x80 ≤ s ∧ s ≤ 0xbf) ∨ (0xe0 ≤ s ∧ s ≤ 0xef) →
      0x80 ≤ t → t ≤ 0xFF →
      r.callback = none → src.channel ≤ 0 → r.flags.expand = false →
      (∀ l, r.to_skip = some l → midi_skip_match l s = false) →
      (midi_reader_feed r src [(s : Int), (d1 : Int), (d2 : Int), (t : Int)]).1 =
        [MIDIF_NEXT, MIDIF_NEXT, MIDIF_NEXT, MIDIF_COMPLETE]) := by
  have hM : MIDI_FRAME_MAX = 128 := rfl
  have hset0 : ((src.current.data.set 0 s) : List Nat)[0]?.getD 0 = s :=
    midi_getE_set_self _ _ _ hsrc3
  have hset0d : ((src.current.data.set 0 s) : List Nat).getD 0 0 = s :=
    midi_getD_set_self _ _ _ _ hsrc3
  refine ⟨?_, ?_, ?_⟩
  case _ =>
    intro hs
    have p1 := midi_push_first_status r src s hsrc1 hsrc2 hsrc3 (by omega) (by omega)
    rw [midi_reader_feed_cons, p1]
    simp only
    have pd := midi_feed_data_run [d1, d2] r { src with running := s, current := ⟨1, src.current.data.set 0 s⟩ } (by intro x hx; simp at hx; rcases hx with h | h <;> omega) (by simp; omega) (by simp) (by simp [hM]) (by simp [hset0]; omega) (by simp [hset0]; omega)
    simp only at pd
    have hmap : ([d1, d2].map (Nat.cast : Nat → Int)) = [(d1 : Int), (d2 : Int)] := rfl
    rw [hmap] at pd
    rw [pd]
    rfl
  case _ =>
    intro hs
    have p1 := midi_push_first_status r src s hsrc1 hsrc2 hsrc3 (by omega) (by omega)
    rw [midi_reader_feed_cons, p1]
    simp only
    have pd := midi_feed_data_run [d1] r { src with running := s, current := ⟨1, src.current.data.set 0 s⟩ } (by intro x hx; simp at hx; omega) (by simp; omega) (by simp) (by simp [hM]) (by simp [hset0]; omega) (by simp [hset0]; omega)
    simp only at pd
    have hmap : ([d1].map (Nat.cast : Nat → Int)) = [(d1 : Int)] := rfl
    rw [hmap] at pd
    rw [pd]
    rfl
  case _ =>
    intro t hs ht1 ht2 hcb hch hexp hskip
    have p1 := midi_push_first_status r src s hsrc1 hsrc2 hsrc3 (by omega) (by omega)
    rw [midi_reader_feed_cons, p1]
    simp only
    have hg1 : (((src.current.data.set 0 s).set 1 d1) : List Nat)[0]?.getD 0 = s := by
      rw [midi_getE_set_ne _ _ _ _ (by omega)]
      exact hset0
    have q1 := midi_push_data_next r { src with running := s, current := ⟨1, src.current.data.set 0 s⟩ } d1 hd1 (by simp; omega) (by simp) (by simp [hM]) (by simp [hset0]; omega) (by simp [hset0]; omega)
    simp only at q1
    rw [midi_reader_feed_cons, q1]
    simp only
    have q2 := midi_push_data_next r { src with running := s, current := ⟨1 + 1, (src.current.data.set 0 s).set 1 d1⟩ } d2 hd2 (by simp; omega) (by simp) (by simp [hM]) (by simp [hg1]; omega) (by simp [hg1]; omega)
    simp only at q2
    rw [midi_reader_feed_cons, q2]
    simp only
    have hg2 : ((((src.current.data.set 0 s).set 1 d1).set 2 d2) : List Nat).getD 0 0 = s := by
      rw [midi_getD_set_ne _ _ _ _ _ (by omega), midi_getD_set_ne _ _ _ _ _ (by omega)]
      exact midi_getD_set_self _ _ _ _ hsrc3
    have p4 := midi_push_boundary r { src with running := s, current := ⟨1 + 1 + 1, ((src.current.data.set 0 s).set 1 d1).set 2 d2⟩ } t ht1 ht2 (by simp; omega) (by simp [hM]) (by simp)
    simp only at p4
    rw [midi_reader_feed_cons, p4]
    have p5 := midi_frame_process_complete r ⟨1 + 1 + 1, ((src.current.data.set 0 s).set 1 d1).set 2 d2⟩ { src with running := 0, push_back := (t : Int), current := ⟨1 + 1 + 1, ((src.current.data.set 0 s).set 1 d1).set 2 d2⟩ } (by simp) (by intro l hl; simp only [hg2]; exact hskip l hl) (by simp [hch]) (Or.inl hexp) hcb
    simp only at p5
    simp only [p5]
    rfl

/-- Counterexample to C1 as stated: a fresh source fed the 2-byte
program-change message `C0 40` answers `next` on the final byte, not
the claimed `complete`. -/
theorem midi_fixed_length_feed_counterexample :
    (midi_reader_feed midi_demo_reader (midi_reader_reset_source false).1
      [0xC0, 0x40]).1 = [MIDIF_NEXT, MIDIF_NEXT] ∧
    MIDIF_NEXT ≠ MIDIF_COMPLETE := by
  constructor
  · decide
  · decide

/-- Witness for C1 on a fresh source and the note-on `90 3C 64`
followed by the status byte 0xFE. -/
theorem midi_fixed_length_feed_spec_witness :
    (midi_reader_reset_source false).1.running = 0 ∧
    (midi_reader_feed midi_demo_reader (midi_reader_reset_source false).1
      [((0x90 : Nat) : Int), ((60 : Nat) : Int), ((100 : Nat) : Int),
       ((0xFE : Nat) : Int)]).1 =
      [MIDIF_NEXT, MIDIF_NEXT, MIDIF_NEXT, MIDIF_COMPLETE] :=
  ⟨by decide,
   (midi_fixed_length_feed_spec midi_demo_reader (midi_reader_reset_source false).1
      0x90 60 100 (by decide) (by decide) (by decide) (by decide) (by decide)).2.2
     0xFE (by decide) (by decide) (by decide) rfl (by decide) rfl
     (fun l hl => nomatch hl)⟩

/-! ## C2: running-status accumulation and expansion -/

/-- The claim's description of an expanded run: one 3-byte message per
data pair, each reusing the status byte, in original order. -/
def midi_run_spec (s : Nat) : List Nat → List Nat
  | d1 :: d2 :: rest => s :: d1 :: d2 :: midi_run_spec s rest
  | _ => []

/-- Feeding a concatenation feeds the two parts in sequence. -/
theorem midi_reader_feed_append :
    ∀ (xs ys : List Int) (r : midi_reader_t) (src : midi_reader_source_t),
      midi_reader_feed r src (xs ++ ys) =
        ((midi_reader_feed r src xs).1 ++
           (midi_reader_feed (midi_reader_feed r src xs).2.1
             (midi_reader_feed r src xs).2.2 ys).1,
         (midi_reader_feed (midi_reader_feed r src xs).2.1
           (midi_reader_feed r src xs).2.2 ys).2) := by
  intro xs
  induction xs with
  | nil => intro ys r src; rfl
  | cons b bs ih =>
    intro ys r src
    rw [List.cons_append, midi_reader_feed_cons, ih, midi_reader_feed_cons]
    rfl

/-- What the expansion loop computes: starting at pair index `i` with
`k` pairs left, it appends `k` triples `status, data, data` and leaves
everything below the write position alone. -/
theorem midi_expand_loop_spec :
    ∀ (k : Nat) (f mf : midi_frame_t) (i fuel : Nat),
      f.len = i + 2 * k → 1 ≤ i → k ≤ fuel →
      mf.len + 3 * k ≤ mf.data.length → f.len ≤ f.data.length →
      (midi_expand_loop f fuel mf i).len = mf.len + 3 * k ∧
      (midi_expand_loop f fuel mf i).data.length = mf.data.length ∧
      (midi_expand_loop f fuel mf i).data.take (mf.len + 3 * k) =
        mf.data.take mf.len ++
          midi_run_spec (f.data.getD 0 0) ((f.data.drop i).take (2 * k)) := by
  intro k
  induction k with
  | zero =>
    intro f mf i fuel hflen hi hfuel hcap hfl
    have hstop : midi_expand_loop f fuel mf i = mf := by
      cases fuel with
      | zero => rfl
      | succ fu =>
        rw [midi_expand_loop, if_neg (by omega)]
    rw [hstop]
    simp [midi_run_spec]
  | succ k ih =>
    intro f mf i fuel hflen hi hfuel hcap hfl
    obtain ⟨fu, rfl⟩ : ∃ fu, fuel = fu + 1 := ⟨fuel - 1, by omega⟩
    rw [midi_expand_loop, if_pos (by omega)]
    simp only
    have hlen1 : mf.len < mf.data.length := by omega
    have hlen2 : mf.len + 1 < mf.data.length := by omega
    have hlen3 : mf.len + 2 < mf.data.length := by omega
    have hihx := ih f ⟨mf.len + 1 + 1 + 1, ((mf.data.set mf.len (f.data.getD 0 0)).set (mf.len + 1) (f.data.getD i 0)).set (mf.len + 1 + 1) (f.data.getD (i + 1) 0)⟩ (i + 2) fu (by omega) (by omega) (by omega) (by simp; omega) hfl
    simp only at hihx
    obtain ⟨ih1, ih2, ih3⟩ := hihx
    have e1 : mf.len + 1 + 1 + 1 + 3 * k = mf.len + 3 * (k + 1) := by omega
    rw [e1] at ih1 ih3
    refine ⟨ih1, by simpa using ih2, ?_⟩
    rw [ih3]
    have tk1 : (mf.data.set mf.len (f.data.getD 0 0)).take (mf.len + 1) =
        mf.data.take mf.len ++ [f.data.getD 0 0] :=
      midi_take_set_succ _ _ _ hlen1
    have tk2 : (((mf.data.set mf.len (f.data.getD 0 0)).set (mf.len + 1) (f.data.getD i 0))).take (mf.len + 1 + 1) =
        (mf.data.set mf.len (f.data.getD 0 0)).take (mf.len + 1) ++ [f.data.getD i 0] := by
      have := midi_take_set_succ (mf.data.set mf.len (f.data.getD 0 0)) (mf.len + 1) (f.data.getD i 0) (by simp; omega)
      simpa using this
    have tk3 : ((((mf.data.set mf.len (f.data.getD 0 0)).set (mf.len + 1) (f.data.getD i 0))).set (mf.len + 1 + 1) (f.data.getD (i + 1) 0)).take (mf.len + 1 + 1 + 1) =
        (((mf.data.set mf.len (f.data.getD 0 0)).set (mf.len + 1) (f.data.getD i 0))).take (mf.len + 1 + 1) ++ [f.data.getD (i + 1) 0] := by
      have := midi_take_set_succ (((mf.data.set mf.len (f.data.getD 0 0)).set (mf.len + 1) (f.data.getD i 0))) (mf.len + 1 + 1) (f.data.getD (i + 1) 0) (by simp; omega)
      simpa using this
    rw [tk3, tk2, tk1]
    have hi1 : i < f.data.length := by omega
    have hi2 : i + 1 < f.data.length := by omega
    have hdrop1 : f.data.drop i = f.data.getD i 0 :: f.data.drop (i + 1) := by
      rw [List.drop_eq_getElem_cons hi1, List.getD_eq_getElem?_getD,
        List.getElem?_eq_getElem hi1]
      rfl
    have hdrop2 : f.data.drop (i + 1) = f.data.getD (i + 1) 0 :: f.data.drop (i + 2) := by
      rw [List.drop_eq_getElem_cons hi2, List.getD_eq_getElem?_getD,
        List.getElem?_eq_getElem hi2]
      rfl
    have e2 : 2 * (k + 1) = 2 * k + 1 + 1 := by omega
    rw [hdrop1, hdrop2, e2, List.take_succ_cons, List.take_succ_cons,
      midi_run_spec]
    simp [List.append_assoc]

/-- Running-status expansion of an accumulated run of `N` data pairs
(with `3 * N + 1 <= 128`): succeeds and rewrites the frame to `N`
3-byte messages, the k-th being the status byte followed by the k-th
data pair, in original order. -/
theorem midi_expand_run (s : Nat) (ds : List Nat) (N : Nat) (f : midi_frame_t)
    (hlen : f.len = 1 + 2 * N) (hN1 : 1 ≤ N) (hN2 : N ≤ 42)
    (hdata : f.data.take f.len = s :: ds) (h128 : f.data.length = 128)
    (hs1 : 0x80 ≤ s) (hs2 : s ≤ 0xef) :
    (midi_frame_expand_running f).1 = true ∧
    (midi_frame_expand_running f).2.len = 3 * N ∧
    (midi_frame_expand_running f).2.data.take (3 * N) = midi_run_spec s ds := by
  have hdlen : ds.length = 2 * N := by
    have := congrArg List.length hdata
    simp [List.length_take] at this
    omega
  have hd0 : f.data.getD 0 0 = s := by
    have h0 : f.data[0]? = (f.data.take f.len)[0]? := by
      rw [List.getElem?_take, if_pos (by omega)]
    rw [List.getD_eq_getElem?_getD, h0, hdata]
    simp
  by_cases hN : N = 1
  case pos =>
    subst hN
    have h3 : f.len = 3 := by omega
    rw [midi_frame_expand_running, if_pos (Or.inr (Or.inr h3))]
    refine ⟨rfl, by simpa using h3, ?_⟩
    have : (3 : Nat) * 1 = f.len := by omega
    rw [this, hdata]
    obtain ⟨a, b, hab⟩ : ∃ a b, ds = [a, b] :=
      List.length_eq_two.mp (by omega)
    rw [hab]
    rfl
  case neg =>
    rw [midi_frame_expand_running, if_neg (by rw [hd0]; omega)]
    rw [if_neg (by rw [hlen]; omega)]
    rw [if_neg (by rw [hlen, MIDI_FRAME_MAX]; push_cast; omega)]
    have hloop := midi_expand_loop_spec N f (midi_frame_reset f) 1 f.len
      (by omega) (by omega) (by omega)
      (by simp [midi_frame_reset]; omega) (by omega)
    obtain ⟨h1, h2, h3⟩ := hloop
    have hreset : (midi_frame_reset f).len = 0 := rfl
    rw [hreset] at h1 h3
    refine ⟨rfl, by simpa using h1, ?_⟩
    simp only [Nat.zero_add] at h3
    simp only [h3, hd0]
    have hdrop : (f.data.drop 1).take (2 * N) = ds := by
      have h' := congrArg (List.drop 1) hdata
      rw [List.drop_take] at h'
      have e : f.len - 1 = 2 * N := by omega
      rw [e] at h'
      simpa using h'
    rw [hdrop]
    simp [midi_frame_reset]

/-- The frame accumulated by feeding status `s` then data bytes `ds`
into a fresh source: `s` at index 0, the data bytes following. -/
def midi_run_frame (src : midi_reader_source_t) (s : Nat) (ds : List Nat) :
    midi_frame_t :=
  ⟨1 + ds.length, midi_list_write (src.current.data.set 0 s) 1 ds⟩

/-- C2 (amended, N bounded by 42 so that the expanded run fits the
128-byte frame): feeding a fresh source a channel-voice status, `N`
data pairs and a terminating status byte `t` yields `next` on all but
the last byte and `complete` on `t`; exactly one frame — the
accumulated `s :: ds` of length `1 + 2N` — joins the queue; `t` is
pushed back on the source; and expanding that frame succeeds, yielding
the `N` 3-byte messages `s, d(2k-1), d(2k)` in original order. -/
theorem midi_running_status_run_spec (r : midi_reader_t)
    (src : midi_reader_source_t) (s t N : Nat) (ds : List Nat)
    (hs1 : 0x80 ≤ s) (hs2 : s ≤ 0xef)
    (hds : ∀ d ∈ ds, d < 0x80) (hdlen : ds.length = 2 * N)
    (hN1 : 1 ≤ N) (hN2 : N ≤ 42)
    (ht1 : 0x80 ≤ t) (ht2 : t ≤ 0xFF)
    (hsrc1 : src.running = 0) (hsrc2 : src.current.len = 0)
    (hsrc3 : src.current.data.length = 128)
    (hch : src.channel ≤ 0)
    (hcb : r.callback = none) (hexp : r.flags.expand = false)
    (hskip : ∀ l, r.to_skip = some l → midi_skip_match l s = false)
    (hoff : r.frames.offset ≤ r.frames.frames.length)
    (hcap : r.frames.frames.length < MIDI_READER_FRAMES_MAX) :
    (midi_reader_feed r src ((s :: (ds ++ [t])).map (Nat.cast : Nat → Int))).1 =
      List.replicate (ds.length + 1) MIDIF_NEXT ++ [MIDIF_COMPLETE] ∧
    (midi_reader_feed r src ((s :: (ds ++ [t])).map (Nat.cast : Nat → Int))).2.1.frames.frames.drop
        (midi_reader_feed r src ((s :: (ds ++ [t])).map (Nat.cast : Nat → Int))).2.1.frames.offset =
      r.frames.frames.drop r.frames.offset ++ [midi_run_frame src s ds] ∧
    (midi_run_frame src s ds).len = 1 + 2 * N ∧
    (midi_run_frame src s ds).data.take (1 + 2 * N) = s :: ds ∧
    (midi_reader_feed r src ((s :: (ds ++ [t])).map (Nat.cast : Nat → Int))).2.2.push_back =
      (t : Int) ∧
    (midi_frame_expand_running (midi_run_frame src s ds)).1 = true ∧
    (midi_frame_expand_running (midi_run_frame src s ds)).2.len = 3 * N ∧
    (midi_frame_expand_running (midi_run_frame src s ds)).2.data.take (3 * N) =
      midi_run_spec s ds := by
  have hM : MIDI_FRAME_MAX = 128 := rfl
  have hsrc3' : 0 < src.current.data.length := by omega
  have hset0 : ((src.current.data.set 0 s) : List Nat)[0]?.getD 0 = s :=
    midi_getE_set_self _ _ _ hsrc3'
  have hFlen : (midi_run_frame src s ds).len = 1 + 2 * N := by
    rw [midi_run_frame]
    simp [hdlen]
  have hF128 : (midi_run_frame src s ds).data.length = 128 := by
    rw [midi_run_frame]
    simp [midi_list_write_length, hsrc3]
  have hFtake : (midi_run_frame src s ds).data.take (1 + 2 * N) = s :: ds := by
    rw [midi_run_frame]
    simp only [← hdlen]
    have := midi_list_write_take ds (src.current.data.set 0 s) 1
      (by simp [hsrc3]; omega)
    rw [this]
    have h1 : (src.current.data.set 0 s).take 1 = [s] := by
      have := midi_take_set_succ src.current.data 0 s hsrc3'
      simpa using this
    rw [h1]
    rfl
  have hFd0 : (midi_run_frame src s ds).data.getD 0 0 = s := by
    rw [midi_run_frame]
    simp only
    rw [midi_list_write_getD_lt _ _ _ _ (by omega)]
    exact midi_getD_set_self _ _ _ _ hsrc3'
  have p1 := midi_push_first_status r src s hsrc1 hsrc2 hsrc3' (by omega) (by omega)
  have pd := midi_feed_data_run ds r { src with running := s, current := ⟨1, src.current.data.set 0 s⟩ } (fun d hd => hds d hd) (by simp; omega) (by simp) (by simp [hM]; omega) (by simp [hset0]; omega) (by simp [hset0]; omega)
  simp only at pd
  have hfeed1 : midi_reader_feed r src ((s :: ds).map (Nat.cast : Nat → Int)) = (List.replicate (ds.length + 1) MIDIF_NEXT, r, { src with running := s, current := midi_run_frame src s ds }) := by
    rw [List.map_cons, midi_reader_feed_cons, p1]
    simp only
    rw [pd, List.replicate_succ]
    rfl
  have p4 := midi_push_boundary r { src with running := s, current := midi_run_frame src s ds } t ht1 ht2 (by show ¬s = 0; omega) (by show ¬(midi_run_frame src s ds).len = MIDI_FRAME_MAX; rw [hFlen, hM]; omega) (by show (midi_run_frame src s ds).len % 2 = 1; rw [hFlen]; omega)
  have p5 := midi_frame_process_complete r (midi_run_frame src s ds) { src with running := 0, push_back := (t : Int), current := midi_run_frame src s ds } (by rw [hFlen]; omega) (by intro l hl; rw [hFd0]; exact hskip l hl) (by show src.channel ≤ 0; exact hch) (Or.inl hexp) hcb
  have hfull : midi_reader_feed r src ((s :: (ds ++ [t])).map (Nat.cast : Nat → Int)) = (List.replicate (ds.length + 1) MIDIF_NEXT ++ [MIDIF_COMPLETE], { r with frames := (midi_queue_store r.frames (midi_run_frame src s ds)).1, total := midi_stats_add_missed (midi_stats_bump_read r.total) (midi_queue_store r.frames (midi_run_frame src s ds)).2 }, { src with running := 0, push_back := (t : Int), current := midi_run_frame src s ds, stats := midi_stats_bump_read src.stats }) := by
    have hmapsplit : (s :: (ds ++ [t])).map (Nat.cast : Nat → Int) = ((s :: ds).map (Nat.cast : Nat → Int)) ++ [(t : Int)] := by
      simp
    rw [hmapsplit, midi_reader_feed_append, hfeed1]
    simp only
    rw [midi_reader_feed_cons, p4]
    simp only [p5]
    rfl
  have hstore := midi_queue_store_below_cap r.frames (midi_run_frame src s ds) hoff hcap
  have hexpand := midi_expand_run s ds N (midi_run_frame src s ds) hFlen hN1 hN2 (by rw [hFlen]; exact hFtake) hF128 hs1 hs2
  rw [hfull]
  exact ⟨rfl, hstore.2, hFlen, hFtake, rfl, hexpand.1, hexpand.2.1, hexpand.2.2⟩

/-- Counterexample to C2 as stated (any `N >= 1`): with `N = 43`
(status 0x90, 86 data bytes, then 0x80) accumulation completes with one
87-byte frame, but expanding it fails — the expanded length `3*43 =
129` exceeds the 128-byte frame, so `midi_frame_expand_running`
returns false instead of the claimed success. -/
theorem midi_running_status_run_counterexample :
    (midi_reader_feed midi_demo_reader (midi_reader_reset_source false).1
       ((0x90 : Int) :: (List.replicate 86 (0 : Int) ++ [(0x80 : Int)]))).1.getLast? =
      some MIDIF_COMPLETE ∧
    ((midi_reader_feed midi_demo_reader (midi_reader_reset_source false).1
       ((0x90 : Int) :: (List.replicate 86 (0 : Int) ++ [(0x80 : Int)]))).2.1.frames.frames.map
      (fun f => (midi_frame_expand_running f).1)) = [false] := by
  constructor
  · decide
  · decide

/-- Witness for C2 at `N = 1`: status 0x90, data pair `[1, 2]`,
terminator 0x80, on a fresh reader and source. -/
theorem midi_running_status_run_spec_witness :
    (∀ d ∈ [1, 2], d < 0x80) ∧
    ((midi_reader_feed midi_demo_reader (midi_reader_reset_source false).1
        ((0x90 :: ([1, 2] ++ [0x80])).map (Nat.cast : Nat → Int))).1 =
      List.replicate ([1, 2].length + 1) MIDIF_NEXT ++ [MIDIF_COMPLETE]) :=
  ⟨by decide,
   (midi_running_status_run_spec midi_demo_reader
      (midi_reader_reset_source false).1 0x90 0x80 1 [1, 2]
      (by decide) (by decide) (by decide) (by decide) (by decide) (by decide)
      (by decide) (by decide) (by decide) (by decide) (by decide) (by decide)
      rfl rfl (fun l hl => nomatch hl) (by decide) (by decide)).1⟩

/-! ## C6: injection round-trip -/

/-- A frame of length exactly 3 skips expansion as a no-op success
(whatever its bytes). -/
theorem midi_expand_len3_noop (mf : midi_frame_t) (h : mf.len = 3) :
    midi_frame_expand_running mf = (true, mf) := by
  rw [midi_frame_expand_running, if_pos (Or.inr (Or.inr h))]

/-- Zipping an index list with a pointwise-identity function changes
nothing. -/
theorem midi_zipWith_id :
    ∀ (ns : List Nat) (l : List midi_reader_source_t)
      (f : Nat → midi_reader_source_t → midi_reader_source_t),
      (∀ i s, f i s = s) → ns.length = l.length → ns.zipWith f l = l := by
  intro ns
  induction ns with
  | nil =>
    intro l f hf hlen
    rw [List.length_nil] at hlen
    rw [List.zipWith_nil_left]
    exact (List.length_eq_zero.mp hlen.symm).symm
  | cons n ns ih =>
    intro l f hf hlen
    cases l with
    | nil => simp at hlen
    | cons x xs =>
      rw [List.zipWith_cons_cons, hf, ih xs f hf (by simpa using hlen)]

/-- With no registered sources, the read phase changes nothing. -/
theorem midi_reader_read_no_sources (r : midi_reader_t)
    (input : List (List Nat)) (h : r.nsources = 0)
    (hlen : r.sources.length = MIDI_READER_IN_MAX) :
    midi_reader_read r input = r := by
  rw [midi_reader_read]
  have hz := midi_zipWith_id (List.range MIDI_READER_IN_MAX) r.sources
    (fun i s => if i < r.nsources then midi_source_read s (input.getD i []) else s)
    (fun i s => by rw [h]; exact if_neg (Nat.not_lt_zero i)) (by simp [hlen])
  show { r with sources := (List.range MIDI_READER_IN_MAX).zipWith (fun i s => if i < r.nsources then midi_source_read s (input.getD i []) else s) r.sources } = r
  rw [hz]

/-- The throwaway source `midi_reader_inject` parses with: fully
reset, handle -1. -/
def midi_inject_src : midi_reader_source_t :=
  ⟨-1, 0, [], 0, -1, midi_frame_blank, -1, midi_reader_stats_zero⟩

/-- C6: injecting a well-formed 3-byte note-on frame (no matching
skip entry, no callback, queue below capacity) returns 3 and appends
exactly that frame to the unconsumed region of the queue; the run is
finalized internally by one synthesized 0xFE, which does not appear in
the stored frame; on a source-less reader with a drained queue, the
next `get-next` returns the frame. -/
theorem midi_reader_inject_note_on (r : midi_reader_t) (mf : midi_frame_t)
    (s d1 d2 : Nat)
    (hmf1 : mf.len = 3) (hmf2 : mf.data.take 3 = [s, d1, d2])
    (hs1 : 0x90 ≤ s) (hs2 : s ≤ 0x9f) (hd1 : d1 < 0x80) (hd2 : d2 < 0x80)
    (hcb : r.callback = none)
    (hskip : ∀ l, r.to_skip = some l → midi_skip_match l s = false)
    (hoff : r.frames.offset ≤ r.frames.frames.length)
    (hcap : r.frames.frames.length < MIDI_READER_FRAMES_MAX) :
    (midi_reader_inject r mf).1 = 3 ∧
    (midi_reader_inject r mf).2.frames.frames.drop
        (midi_reader_inject r mf).2.frames.offset =
      r.frames.frames.drop r.frames.offset ++ [midi_frame_of_bytes [s, d1, d2]] ∧
    0xFE ∉ (midi_frame_of_bytes [s, d1, d2]).data.take 3 ∧
    (r.nsources = 0 → r.sources.length = MIDI_READER_IN_MAX →
      r.frames.offset = r.frames.frames.length →
      ∀ (start : Int) (input : List (List Nat)),
        (midi_reader_get_next (midi_reader_inject r mf).2 start input).1 =
          some (midi_frame_of_bytes [s, d1, d2])) := by
  have hM : MIDI_FRAME_MAX = 128 := rfl
  have hbytes : mf.data.take mf.len = [s, d1, d2] := by
    rw [hmf1]
    exact hmf2
  have hblank : (0 : Nat) < midi_frame_blank.data.length := by
    rw [midi_frame_blank]
    simp [MIDI_FRAME_MAX]
  have q1 := midi_push_first_status r midi_inject_src s rfl rfl (by exact hblank) (by omega) (by omega)
  simp only [midi_inject_src] at q1
  have hset0 : ((midi_frame_blank.data.set 0 s) : List Nat)[0]?.getD 0 = s :=
    midi_getE_set_self _ _ _ hblank
  have q2 := midi_push_data_next r ⟨-1, s, [], 0, -1, ⟨1, midi_frame_blank.data.set 0 s⟩, -1, midi_reader_stats_zero⟩ d1 hd1 (by simp; omega) (by simp) (by simp [hM]) (by simp [hset0]; omega) (by simp [hset0]; omega)
  simp only at q2
  have hg1 : (((midi_frame_blank.data.set 0 s).set 1 d1) : List Nat)[0]?.getD 0 = s := by
    rw [midi_getE_set_ne _ _ _ _ (by omega)]
    exact hset0
  have q3 := midi_push_data_next r ⟨-1, s, [], 0, -1, ⟨1 + 1, (midi_frame_blank.data.set 0 s).set 1 d1⟩, -1, midi_reader_stats_zero⟩ d2 hd2 (by simp; omega) (by simp) (by simp [hM]) (by simp [hg1]; omega) (by simp [hg1]; omega)
  simp only at q3
  have hg2 : ((((midi_frame_blank.data.set 0 s).set 1 d1).set (1 + 1) d2) : List Nat).getD 0 0 = s := by
    rw [midi_getD_set_ne _ _ _ _ _ (by omega), midi_getD_set_ne _ _ _ _ _ (by omega)]
    exact midi_getD_set_self _ _ _ _ hblank
  have qb := midi_push_boundary r ⟨-1, s, [], 0, -1, ⟨1 + 1 + 1, ((midi_frame_blank.data.set 0 s).set 1 d1).set (1 + 1) d2⟩, -1, midi_reader_stats_zero⟩ 0xFE (by omega) (by omega) (by simp; omega) (by simp [hM]) (by simp)
  have p5 := midi_frame_process_complete r ⟨1 + 1 + 1, ((midi_frame_blank.data.set 0 s).set 1 d1).set (1 + 1) d2⟩ ⟨-1, 0, [], 0, ((0xFE : Nat) : Int), ⟨1 + 1 + 1, ((midi_frame_blank.data.set 0 s).set 1 d1).set (1 + 1) d2⟩, -1, midi_reader_stats_zero⟩ (by simp) (by intro l hl; simp only [hg2]; exact hskip l hl) (by show ((-1 : Int) ≤ 0); omega) (Or.inr (by exact congrArg Prod.snd (midi_expand_len3_noop _ rfl))) hcb
  have hFr : (⟨1 + 1 + 1, ((midi_frame_blank.data.set 0 s).set 1 d1).set (1 + 1) d2⟩ : midi_frame_t) = midi_frame_of_bytes [s, d1, d2] := rfl
  have hsrc0 : ({ (midi_reader_reset_source false).1 with fd := -1 } : midi_reader_source_t) = midi_inject_src := rfl
  have hinject : midi_reader_inject r mf = (3, { r with frames := (midi_queue_store r.frames (midi_frame_of_bytes [s, d1, d2])).1, total := midi_stats_add_missed (midi_stats_bump_read r.total) (midi_queue_store r.frames (midi_frame_of_bytes [s, d1, d2])).2 }) := by
    rw [midi_reader_inject, if_neg (by omega), hbytes]
    simp only [hsrc0, midi_inject_src]
    rw [midi_inject_loop, q1]
    simp only
    rw [midi_inject_loop, q2]
    simp only
    rw [midi_inject_loop, q3]
    simp only
    rw [midi_inject_loop]
    rw [if_pos (⟨by rw [hmf1], by simp; omega⟩ : _ ∧ _)]
    rw [show ((0xfe : Int)) = (((0xFE : Nat)) : Int) from rfl, qb]
    simp only [p5]
    rw [hFr]
  have hstore := midi_queue_store_below_cap r.frames (midi_frame_of_bytes [s, d1, d2]) hoff hcap
  refine ⟨by rw [hinject], ?_, ?_, ?_⟩
  · rw [hinject]
    exact hstore.2
  · rw [midi_frame_of_bytes]
    intro hmem
    simp at hmem
    rcases hmem with h | h | h <;> omega
  · intro hns hslen hdrain start input
    rw [hinject]
    have hq : midi_queue_store r.frames (midi_frame_of_bytes [s, d1, d2]) = (⟨0, [midi_frame_of_bytes [s, d1, d2]]⟩, 0) := by
      rw [midi_queue_store]
      have h1024 : (0 : Nat) < MIDI_READER_FRAMES_MAX := by
        rw [MIDI_READER_FRAMES_MAX]
        omega
      rw [if_pos hdrain.symm]
      simp [h1024]
    rw [midi_reader_get_next, midi_reader_update]
    simp only [hq]
    rw [midi_reader_read_no_sources _ _ (by simpa using hns) (by simpa using hslen)]
    rw [show ({ r with frames := (⟨0, [midi_frame_of_bytes [s, d1, d2]]⟩ : midi_frames_t), total := midi_stats_add_missed (midi_stats_bump_read r.total) 0 } : midi_reader_t).nsources = r.nsources from rfl, hns]
    rw [midi_update_loop]
    simp

/-- Witness for C6: injecting note-on `90 3C 64` into a fresh reader
returns 3 and `get-next` hands the same frame back. -/
theorem midi_reader_inject_note_on_witness :
    (midi_frame_of_bytes [0x90, 60, 100]).len = 3 ∧
    (midi_reader_inject midi_demo_reader (midi_frame_of_bytes [0x90, 60, 100])).1 = 3 ∧
    (midi_reader_get_next
      (midi_reader_inject midi_demo_reader (midi_frame_of_bytes [0x90, 60, 100])).2
      (-1) []).1 = some (midi_frame_of_bytes [0x90, 60, 100]) := by
  have h := midi_reader_inject_note_on midi_demo_reader
    (midi_frame_of_bytes [0x90, 60, 100]) 0x90 60 100
    (by decide) (by decide) (by decide) (by decide) (by decide) (by decide)
    rfl (fun l hl => nomatch hl) (by decide) (by decide)
  exact ⟨by decide, h.1, h.2.2.2 rfl (by decide) rfl (-1) []⟩

/-! ## C5: queue shedding -/

/-- Verification driver: finalize a sequence of completed frames one
after the other against the same source (as successive completions
do), collecting the outcomes. -/
def midi_process_seq (reader : midi_reader_t) (src : midi_reader_source_t) :
    List midi_frame_t → midi_reader_t × midi_reader_source_t × List midi_frame_state_t
  | [] => (reader, src, [])
  | f :: fs =>
    let p := midi_frame_process reader f src
    let rest := midi_process_seq p.reader p.src fs
    (rest.1, rest.2.1, p.st :: rest.2.2)

/-- With no callback, no expansion, no remap and no skip match, a
sequence of finalizations reports `complete` throughout, fills the
queue up to its 1024-frame capacity in completion order, counts every
excess frame in the cumulative `missed` only, and never touches any
per-source `missed`. -/
theorem midi_process_seq_shed :
    ∀ (fs : List midi_frame_t) (r : midi_reader_t) (src : midi_reader_source_t),
      r.callback = none → r.flags.expand = false → src.channel ≤ 0 →
      (∀ f ∈ fs, f.len ≠ 0 ∧
        ∀ l, r.to_skip = some l → midi_skip_match l (f.data.getD 0 0) = false) →
      r.frames.offset = 0 → r.frames.frames.length ≤ MIDI_READER_FRAMES_MAX →
      (midi_process_seq r src fs).2.2 = List.replicate fs.length MIDIF_COMPLETE ∧
      (midi_process_seq r src fs).1.frames =
        ⟨0, (r.frames.frames ++ fs).take MIDI_READER_FRAMES_MAX⟩ ∧
      (midi_process_seq r src fs).1.total.missed =
        r.total.missed + (r.frames.frames.length + fs.length - MIDI_READER_FRAMES_MAX) ∧
      (midi_process_seq r src fs).2.1.stats.missed = src.stats.missed := by
  intro fs
  induction fs with
  | nil =>
    intro r src _ _ _ _ hq0 hqlen
    refine ⟨rfl, ?_, ?_, rfl⟩
    · show r.frames = _
      rw [List.append_nil, List.take_of_length_le hqlen, ← hq0]
    · show r.total.missed = r.total.missed + (r.frames.frames.length + ([] : List midi_frame_t).length - MIDI_READER_FRAMES_MAX)
      have hMM : MIDI_READER_FRAMES_MAX = 1024 := rfl
      rw [hMM] at hqlen ⊢
      simp only [List.length_nil]
      omega
  | cons f fs ih =>
    intro r src hcb hexp hch hfs hq0 hqlen
    have hp := midi_frame_process_complete r f src (hfs f (by simp)).1
      (fun l hl => (hfs f (by simp)).2 l hl) hch (Or.inl hexp) hcb
    rw [midi_process_seq]
    rw [hp]
    simp only
    have hqs := midi_queue_store_zero_offset r.frames f hq0
    by_cases hfull : r.frames.frames.length < MIDI_READER_FRAMES_MAX
    · rw [if_pos hfull] at hqs
      have ihx := ih { r with frames := (midi_queue_store r.frames f).1, total := midi_stats_add_missed (midi_stats_bump_read r.total) (midi_queue_store r.frames f).2 } { src with stats := midi_stats_bump_read src.stats } hcb hexp hch (fun g hg => ⟨(hfs g (by simp [hg])).1, fun l hl => (hfs g (by simp [hg])).2 l hl⟩) (by rw [hqs]) (by rw [hqs]; simp [MIDI_READER_FRAMES_MAX] at hfull ⊢; omega)
      refine ⟨by rw [ihx.1, List.length_cons, List.replicate_succ], ?_, ?_, by rw [ihx.2.2.2]; rfl⟩
      · rw [ihx.2.1, hqs]
        simp [MIDI_READER_FRAMES_MAX] at hfull ⊢
      · rw [ihx.2.2.1, hqs]
        simp only [midi_stats_add_missed, midi_stats_bump_read]
        simp [MIDI_READER_FRAMES_MAX] at hfull ⊢
        omega
    · have hfull' : r.frames.frames.length = MIDI_READER_FRAMES_MAX := by omega
      rw [if_neg hfull] at hqs
      have ihx := ih { r with frames := (midi_queue_store r.frames f).1, total := midi_stats_add_missed (midi_stats_bump_read r.total) (midi_queue_store r.frames f).2 } { src with stats := midi_stats_bump_read src.stats } hcb hexp hch (fun g hg => ⟨(hfs g (by simp [hg])).1, fun l hl => (hfs g (by simp [hg])).2 l hl⟩) (by rw [hqs]) (by rw [hqs]; show r.frames.frames.length ≤ MIDI_READER_FRAMES_MAX; omega)
      have htake : (r.frames.frames ++ f :: fs).take MIDI_READER_FRAMES_MAX = r.frames.frames := by
        rw [List.take_append_of_le_length (by omega), List.take_of_length_le (by omega)]
      have htake2 : (r.frames.frames ++ fs).take MIDI_READER_FRAMES_MAX = r.frames.frames := by
        rw [List.take_append_of_le_length (by omega), List.take_of_length_le (by omega)]
      refine ⟨by rw [ihx.1, List.length_cons, List.replicate_succ], ?_, ?_, by rw [ihx.2.2.2]; rfl⟩
      · rw [ihx.2.1, hqs, htake]
        simp only
        rw [htake2]
      · rw [ihx.2.2.1, hqs]
        simp only [midi_stats_add_missed, midi_stats_bump_read]
        simp only [List.length_cons]
        omega

/-- C5: completing `1024 + k` acceptable frames (no skip match, no
callback, queue initially empty, no intervening get-next) stores the
first 1024 in completion order — all retrievable, the read offset
stays 0 — drops the `k` excess frames with outcome still `complete`,
adds exactly `k` to the cumulative `missed`, and leaves the per-source
`missed` untouched. -/
theorem midi_queue_shedding_spec (r : midi_reader_t)
    (src : midi_reader_source_t) (fs : List midi_frame_t) (k : Nat)
    (hcb : r.callback = none) (hexp : r.flags.expand = false)
    (hch : src.channel ≤ 0)
    (hfs : ∀ f ∈ fs, f.len ≠ 0 ∧
      ∀ l, r.to_skip = some l → midi_skip_match l (f.data.getD 0 0) = false)
    (hq : r.frames = ⟨0, []⟩)
    (hlen : fs.length = MIDI_READER_FRAMES_MAX + k) (hk : 1 ≤ k) :
    (midi_process_seq r src fs).2.2 = List.replicate fs.length MIDIF_COMPLETE ∧
    (midi_process_seq r src fs).1.frames =
      ⟨0, fs.take MIDI_READER_FRAMES_MAX⟩ ∧
    (midi_process_seq r src fs).1.total.missed = r.total.missed + k ∧
    (midi_process_seq r src fs).2.1.stats.missed = src.stats.missed := by
  have h := midi_process_seq_shed fs r src hcb hexp hch hfs (by rw [hq]) (by rw [hq]; simp [MIDI_READER_FRAMES_MAX])
  refine ⟨h.1, ?_, ?_, h.2.2.2⟩
  · rw [h.2.1, hq]
    rfl
  · rw [h.2.2.1, hq]
    simp
    omega

/-- Witness for C5: 1025 real-time frames on a fresh reader bump
cumulative `missed` by exactly one. -/
theorem midi_queue_shedding_spec_witness :
    (List.replicate 1025 (midi_frame_of_bytes [0xF8])).length =
      MIDI_READER_FRAMES_MAX + 1 ∧
    (midi_process_seq midi_demo_reader (midi_reader_reset_source false).1
      (List.replicate 1025 (midi_frame_of_bytes [0xF8]))).1.total.missed =
      midi_demo_reader.total.missed + 1 :=
  ⟨by simp [MIDI_READER_FRAMES_MAX],
   (midi_queue_shedding_spec midi_demo_reader (midi_reader_reset_source false).1
      (List.replicate 1025 (midi_frame_of_bytes [0xF8])) 1 rfl rfl (by decide)
      (fun f hf => ⟨by rw [List.eq_of_mem_replicate hf]; decide,
        fun l hl => nomatch hl⟩)
      rfl (by simp [MIDI_READER_FRAMES_MAX]) (by omega)).2.2.1⟩

/-! ## C9: the length-0 arm of the boundary parity check is dead -/

/-- The per-source invariant: whenever running-status tracking is
active, the in-progress frame already holds its status byte — length
at least 1, first byte equal to the remembered status, which is a
channel-voice status. -/
def midi_src_inv (s : midi_reader_source_t) : Prop :=
  s.running ≠ 0 →
    1 ≤ s.current.len ∧ s.current.data.getD 0 0 = s.running ∧
    0x80 ≤ s.running ∧ s.running ≤ 0xef

/-- The reader-wide invariant: every slot of the source table
satisfies `midi_src_inv`. -/
def midi_reader_inv (r : midi_reader_t) : Prop :=
  ∀ s ∈ r.sources, midi_src_inv s

/-- A reset source satisfies the invariant (tracking is off). -/
theorem midi_src_inv_reset (b : Bool) :
    midi_src_inv (midi_reader_reset_source b).1 := by
  intro h
  exact absurd (by cases b <;> rfl) h

/-- Frame finalization never touches the source's `running` or
`current` fields, nor the reader's source table. -/
theorem midi_frame_process_fields (r : midi_reader_t) (mf : midi_frame_t)
    (src : midi_reader_source_t) :
    (midi_frame_process r mf src).src.running = src.running ∧
    (midi_frame_process r mf src).src.current = src.current ∧
    (midi_frame_process r mf src).reader.sources = r.sources ∧
    (midi_frame_process r mf src).reader.nsources = r.nsources := by
  rw [midi_frame_process]
  by_cases h0 : mf.len = 0
  · rw [if_pos h0]
    exact ⟨rfl, rfl, rfl, rfl⟩
  · rw [if_neg h0]
    rcases hts : r.to_skip with _ | l <;>
      rcases hcb : r.callback with _ | cb <;>
      simp only [hts, hcb]
    case _ =>
      rw [if_neg (by simp), midi_frame_store_spec]
      exact ⟨rfl, rfl, rfl, rfl⟩
    case _ =>
      rw [if_neg (by simp)]
      split_ifs
      all_goals first
        | exact ⟨rfl, rfl, rfl, rfl⟩
        | (rw [midi_frame_store_spec]; exact ⟨rfl, rfl, rfl, rfl⟩)
    case _ =>
      by_cases hm : midi_skip_match l (mf.data.getD 0 0) = true
      · rw [if_pos hm]
        exact ⟨rfl, rfl, rfl, rfl⟩
      · rw [if_neg hm, midi_frame_store_spec]
        exact ⟨rfl, rfl, rfl, rfl⟩
    case _ =>
      by_cases hm : midi_skip_match l (mf.data.getD 0 0) = true
      · rw [if_pos hm]
        exact ⟨rfl, rfl, rfl, rfl⟩
      · rw [if_neg hm]
        split_ifs
        all_goals first
          | exact ⟨rfl, rfl, rfl, rfl⟩
          | (rw [midi_frame_store_spec]; exact ⟨rfl, rfl, rfl, rfl⟩)

/-- Writing index 0 leaves either the written byte (non-empty list) or
the default 0 (empty list) at index 0. -/
theorem midi_getD_set_zero_cases (l : List Nat) (b : Nat) :
    (l.set 0 b).getD 0 0 = b ∨ (l.set 0 b).getD 0 0 = 0 := by
  cases l with
  | nil => right; rfl
  | cons x xs => left; rfl

/-- One step of the byte-state-machine preserves the per-source
invariant, never touches the source table, and clears running-status
tracking before any terminal outcome. -/
theorem midi_push_byte_inv (r : midi_reader_t) (src : midi_reader_source_t)
    (d : Int) (h : midi_src_inv src) :
    midi_src_inv (midi_reader_push_byte r src d).src ∧
    (midi_terminal_state (midi_reader_push_byte r src d).st = true →
      (midi_reader_push_byte r src d).src.running = 0) ∧
    (midi_reader_push_byte r src d).reader.sources = r.sources ∧
    (midi_reader_push_byte r src d).reader.nsources = r.nsources := by
  rw [midi_reader_push_byte]
  by_cases c1 : d < 0
  · rw [if_pos c1]
    exact ⟨h, by intro ht; simp [midi_terminal_state] at ht, rfl, rfl⟩
  rw [if_neg c1]
  by_cases c2 : d > 0xFF
  · rw [if_pos c2]
    exact ⟨fun hrn => absurd rfl hrn, fun _ => rfl, rfl, rfl⟩
  rw [if_neg c2]
  by_cases c3 : src.current.len = MIDI_FRAME_MAX
  · rw [if_pos c3]
    exact ⟨fun hrn => absurd rfl hrn, fun _ => rfl, rfl, rfl⟩
  rw [if_neg c3]
  by_cases c4 : src.running ≠ 0 ∧ d.toNat &&& 0x80 ≠ 0
  · rw [if_pos c4]
    by_cases c5 : src.current.len = 0 ∨ ((src.current.len : Int) - 1) % 2 ≠ 0
    · rw [if_pos c5]
      exact ⟨fun hrn => absurd rfl hrn, fun _ => rfl, rfl, rfl⟩
    · rw [if_neg c5]
      obtain ⟨hf1, hf2, hf3, hf4⟩ := midi_frame_process_fields r src.current
        { src with push_back := (d.toNat : Int), running := 0 }
      refine ⟨fun hrn => absurd (show _ = 0 from hf1) hrn,
        fun _ => (show _ = 0 from hf1), hf3, hf4⟩
  rw [if_neg c4]
  by_cases c6 : src.current.len = 0
  · rw [if_pos c6, c6]
    by_cases c7 : (src.current.data.set 0 d.toNat).getD 0 0 &&& 0x80 = 0
    · rw [if_pos c7]
      exact ⟨fun hrn => absurd rfl hrn, fun _ => rfl, rfl, rfl⟩
    rw [if_neg c7]
    have hd0cases := midi_getD_set_zero_cases src.current.data d.toNat
    have hd0 : (src.current.data.set 0 d.toNat).getD 0 0 = d.toNat := by
      rcases hd0cases with h1 | h1
      · exact h1
      · exfalso
        exact c7 (by rw [h1]; decide)
    rw [if_neg (by simp)]
    by_cases crange : 0x80 ≤ d.toNat ∧ d.toNat ≤ 0xef
    · rw [if_pos crange]
      split_ifs with c9
      · exact absurd (show d.toNat = 0 from c9.1) (by omega)
      · refine ⟨?_, by intro ht; simp [midi_terminal_state] at ht, rfl, rfl⟩
        intro hrn
        refine ⟨show (1 : Nat) ≤ 0 + 1 by omega, show (src.current.data.set 0 d.toNat).getD 0 0 = d.toNat from hd0, crange.1, crange.2⟩
    · rw [if_neg crange]
      split_ifs with c9
      · obtain ⟨hf1, hf2, hf3, hf4⟩ := midi_frame_process_fields r ⟨0 + 1, src.current.data.set 0 d.toNat⟩ { src with running := 0, current := ⟨0 + 1, src.current.data.set 0 d.toNat⟩ }
        refine ⟨fun hrn => absurd (show _ = 0 from hf1) hrn,
          fun _ => (show _ = 0 from hf1), hf3, hf4⟩
      · exact ⟨fun hrn => absurd rfl hrn, by intro ht; simp [midi_terminal_state] at ht, rfl, rfl⟩
  · rw [if_neg c6]
    by_cases c7 : (src.current.data.set src.current.len d.toNat).getD 0 0 &&& 0x80 = 0
    · rw [if_pos c7]
      exact ⟨fun hrn => absurd rfl hrn, fun _ => rfl, rfl, rfl⟩
    rw [if_neg c7]
    have hd0 : (src.current.data.set src.current.len d.toNat).getD 0 0 =
        src.current.data.getD 0 0 :=
      midi_getD_set_ne _ _ _ _ _ (by omega)
    by_cases c8 : midi_frame_len.getD
        ((src.current.data.set src.current.len d.toNat).getD 0 0 - 0x80) 0 = -0xf0 ∧
        src.current.len + 1 > 1
    · rw [if_pos c8]
      have hrun0 : src.running = 0 := by
        by_contra hrn
        obtain ⟨hl1, hl2, hl3, hl4⟩ := h hrn
        rw [hd0, hl2] at c8
        exact midi_table_not_sysex _ (by omega) c8.1
      by_cases cf7 : d.toNat = 0xf7
      · rw [if_pos cf7]
        obtain ⟨hf1, hf2, hf3, hf4⟩ := midi_frame_process_fields r ⟨src.current.len + 1, src.current.data.set src.current.len d.toNat⟩ { src with current := ⟨src.current.len + 1, src.current.data.set src.current.len d.toNat⟩ }
        refine ⟨fun hrn => absurd ((show _ = src.running from hf1).trans hrun0) hrn,
          fun _ => (show _ = src.running from hf1).trans hrun0, hf3, hf4⟩
      · rw [if_neg cf7]
        refine ⟨?_, by intro ht; simp [midi_terminal_state] at ht, rfl, rfl⟩
        intro hrn
        exact absurd hrun0 hrn
    · rw [if_neg c8]
      by_cases c9 : src.running = 0 ∧
          midi_frame_len.getD
            ((src.current.data.set src.current.len d.toNat).getD 0 0 - 0x80) 0 =
            ((src.current.len + 1 : Nat) : Int)
      · rw [if_pos c9]
        obtain ⟨hf1, hf2, hf3, hf4⟩ := midi_frame_process_fields r ⟨src.current.len + 1, src.current.data.set src.current.len d.toNat⟩ { src with current := ⟨src.current.len + 1, src.current.data.set src.current.len d.toNat⟩ }
        refine ⟨fun hrn => absurd ((show _ = src.running from hf1).trans c9.1) hrn,
          fun _ => (show _ = src.running from hf1).trans c9.1, hf3, hf4⟩
      · rw [if_neg c9]
        refine ⟨?_, by intro ht; simp [midi_terminal_state] at ht, rfl, rfl⟩
        intro hrn
        obtain ⟨hl1, hl2, hl3, hl4⟩ := h hrn
        refine ⟨show (1 : Nat) ≤ src.current.len + 1 by omega, show (src.current.data.set src.current.len d.toNat).getD 0 0 = src.running from hd0.trans hl2, hl3, hl4⟩

/-- Taking a byte (push-back or buffer) leaves `running`/`current`
alone. -/
theorem midi_get_byte_inv (src : midi_reader_source_t) (h : midi_src_inv src) :
    midi_src_inv (midi_reader_get_byte src).2 := by
  rw [midi_reader_get_byte]
  split_ifs <;> exact h

/-- The read phase touches only the input buffer. -/
theorem midi_source_read_inv (src : midi_reader_source_t)
    (xs : List Nat) (h : midi_src_inv src) :
    midi_src_inv (midi_source_read src xs) := by
  simp only [midi_source_read]
  split_ifs <;> exact h

/-- Members of a `zipWith` against an index list satisfy any predicate
preserved by the zipping function. -/
theorem midi_zipWith_mem
    (P : midi_reader_source_t → Prop)
    (f : Nat → midi_reader_source_t → midi_reader_source_t)
    (hf : ∀ i s, P s → P (f i s)) :
    ∀ (ns : List Nat) (l : List midi_reader_source_t),
      (∀ x ∈ l, P x) → ∀ y ∈ ns.zipWith f l, P y := by
  intro ns
  induction ns with
  | nil => intro l _ y hy; simp at hy
  | cons n ns ih =>
    intro l hl y hy
    cases l with
    | nil => simp at hy
    | cons x xs =>
      rw [List.zipWith_cons_cons] at hy
      rcases List.mem_cons.mp hy with h1 | h1
      · rw [h1]
        exact hf n x (hl x (by simp))
      · exact ih xs (fun z hz => hl z (by simp [hz])) y h1

/-- The read phase preserves the reader invariant and the source
count. -/
theorem midi_reader_read_inv (r : midi_reader_t) (input : List (List Nat))
    (h : midi_reader_inv r) :
    midi_reader_inv (midi_reader_read r input) ∧
    (midi_reader_read r input).nsources = r.nsources := by
  constructor
  · intro s hs
    rw [midi_reader_read] at hs
    simp only at hs
    exact midi_zipWith_mem midi_src_inv _
      (fun i s hsv => by
        split
        · exact midi_source_read_inv _ _ hsv
        · exact hsv) _ _ h s hs
  · rfl

/-- One scheduler step preserves the reader invariant and the source
count. -/
theorem midi_update_step_inv (r : midi_reader_t) (idx : Nat)
    (h : midi_reader_inv r) :
    midi_reader_inv (midi_update_step r idx) ∧
    (midi_update_step r idx).nsources = r.nsources := by
  have hs0 : midi_src_inv (r.sources.getD idx (midi_reader_reset_source false).1) := by
    by_cases hidx : idx < r.sources.length
    · rw [List.getD_eq_getElem?_getD, List.getElem?_eq_getElem hidx]
      exact h _ (List.getElem_mem hidx)
    · rw [List.getD_eq_getElem?_getD, List.getElem?_eq_none (by omega)]
      exact midi_src_inv_reset false
  have hs1 := midi_get_byte_inv _ hs0
  have hp := midi_push_byte_inv r
    (midi_reader_get_byte (r.sources.getD idx (midi_reader_reset_source false).1)).2
    (midi_reader_get_byte (r.sources.getD idx (midi_reader_reset_source false).1)).1
    hs1
  rw [midi_update_step]
  constructor
  · intro s hs
    simp only at hs
    rcases List.mem_or_eq_of_mem_set hs with hmem | heq
    · rw [hp.2.2.1] at hmem
      exact h s hmem
    · rw [heq]
      split
      · next hterm =>
        intro hrn
        exact absurd (hp.2.1 hterm) hrn
      · exact hp.1
  · exact hp.2.2.2

/-- The scheduler loop preserves the reader invariant and the source
count. -/
theorem midi_update_loop_inv :
    ∀ (count : Nat) (r : midi_reader_t) (srcidx : Nat), midi_reader_inv r →
      midi_reader_inv (midi_update_loop r srcidx count) ∧
      (midi_update_loop r srcidx count).nsources = r.nsources := by
  intro count
  induction count with
  | zero => intro r srcidx h; exact ⟨h, rfl⟩
  | succ c ih =>
    intro r srcidx h
    rw [midi_update_loop]
    have hstep := midi_update_step_inv r (if r.nsources ≤ srcidx then 0 else srcidx) h
    have hrec := ih (midi_update_step r (if r.nsources ≤ srcidx then 0 else srcidx)) ((if r.nsources ≤ srcidx then 0 else srcidx) + 1) hstep.1
    exact ⟨hrec.1, hrec.2.trans hstep.2⟩

/-- `midi_reader_update` preserves the reader invariant. -/
theorem midi_reader_update_inv (r : midi_reader_t) (start : Int)
    (input : List (List Nat)) (h : midi_reader_inv r) :
    midi_reader_inv (midi_reader_update r start input).2.1 := by
  rw [midi_reader_update]
  have h1 := midi_reader_read_inv r input h
  exact (midi_update_loop_inv _ _ _ h1.1).1

/-- The injection loop never touches the reader's source table. -/
theorem midi_inject_loop_sources :
    ∀ (bs : List Nat) (r : midi_reader_t) (src : midi_reader_source_t)
      (i : Nat), midi_src_inv src →
      (midi_inject_loop r src i bs).2.1.sources = r.sources ∧
      (midi_inject_loop r src i bs).2.1.nsources = r.nsources ∧
      midi_src_inv (midi_inject_loop r src i bs).2.2 := by
  intro bs
  induction bs with
  | nil => intro r src i h; exact ⟨rfl, rfl, h⟩
  | cons b bs ih =>
    intro r src i h
    have hp := midi_push_byte_inv r src (b : Int) h
    rw [midi_inject_loop]
    rcases hst : (midi_reader_push_byte r src (b : Int)).st
    all_goals simp only [hst]
    all_goals first
      | exact ⟨hp.2.2.1, hp.2.2.2, hp.1⟩
      | (have hrec := ih (midi_reader_push_byte r src (b : Int)).reader
          (midi_reader_push_byte r src (b : Int)).src (i + 1) hp.1
         exact ⟨hrec.1.trans hp.2.2.1, hrec.2.1.trans hp.2.2.2, hrec.2.2⟩)

/-- `midi_reader_inject` never touches the source table. -/
theorem midi_reader_inject_sources (r : midi_reader_t) (mf : midi_frame_t) :
    (midi_reader_inject r mf).2.sources = r.sources ∧
    (midi_reader_inject r mf).2.nsources = r.nsources := by
  rw [midi_reader_inject]
  split_ifs with h0
  · exact ⟨rfl, rfl⟩
  · have hsrc0 : ({ (midi_reader_reset_source false).1 with fd := -1 } : midi_reader_source_t) = midi_inject_src := rfl
    rw [hsrc0]
    have hloop := midi_inject_loop_sources (mf.data.take mf.len) r midi_inject_src 0
      (fun hrn => absurd rfl hrn)
    rcases hml : midi_inject_loop r midi_inject_src 0 (mf.data.take mf.len) with ⟨i, rd, sr⟩
    rw [hml] at hloop
    simp only [hml]
    split_ifs with hfin
    · have hp := midi_push_byte_inv rd sr 0xfe hloop.2.2
      exact ⟨hp.2.2.1.trans hloop.1, hp.2.2.2.trans hloop.2.1⟩
    · exact ⟨hloop.1, hloop.2.1⟩

/-- Every state reachable through the public operations satisfies the
reader invariant. -/
theorem midi_reachable_inv (r : midi_reader_t) (h : MidiReachable r) :
    midi_reader_inv r := by
  induction h with
  | init flags to_skip =>
    intro s hs
    rw [midi_reader_init] at hs
    simp only at hs
    rw [List.eq_of_mem_replicate hs]
    exact midi_src_inv_reset false
  | add_source fd channel h ih =>
    rename_i r0
    rw [midi_reader_add_source]
    split_ifs with h1 h2 hc
    · exact ih
    · intro s hs
      simp only at hs
      rcases List.mem_or_eq_of_mem_set hs with hmem | heq
      · exact ih s hmem
      · rw [heq]
        intro hrn
        by_cases hidx : r0.nsources < r0.sources.length
        · have hmemD : r0.sources.getD r0.nsources (midi_reader_reset_source false).1 ∈ r0.sources := by
            rw [List.getD_eq_getElem?_getD, List.getElem?_eq_getElem hidx, Option.getD_some]
            exact List.getElem_mem hidx
          exact ih _ hmemD hrn
        · have hD : r0.sources.getD r0.nsources (midi_reader_reset_source false).1 = (midi_reader_reset_source false).1 := by
            rw [List.getD_eq_getElem?_getD, List.getElem?_eq_none (by omega), Option.getD_none]
          rw [hD] at hrn ⊢
          exact midi_src_inv_reset false hrn
    · intro s hs
      simp only at hs
      rcases List.mem_or_eq_of_mem_set hs with hmem | heq
      · exact ih s hmem
      · rw [heq]
        intro hrn
        by_cases hidx : r0.nsources < r0.sources.length
        · have hmemD : r0.sources.getD r0.nsources (midi_reader_reset_source false).1 ∈ r0.sources := by
            rw [List.getD_eq_getElem?_getD, List.getElem?_eq_getElem hidx, Option.getD_some]
            exact List.getElem_mem hidx
          exact ih _ hmemD hrn
        · have hD : r0.sources.getD r0.nsources (midi_reader_reset_source false).1 = (midi_reader_reset_source false).1 := by
            rw [List.getD_eq_getElem?_getD, List.getElem?_eq_none (by omega), Option.getD_none]
          rw [hD] at hrn ⊢
          exact midi_src_inv_reset false hrn
    · exact ih
  | remove_source fd h ih =>
    rename_i r0
    rw [midi_reader_remove_source]
    split_ifs with h1
    · exact ih
    · rcases hfind : (r0.sources.take r0.nsources).findIdx? (fun s => decide (s.fd = fd)) with _ | i
      · simp only [hfind]
        exact ih
      · simp only [hfind]
        intro s hs
        simp only at hs
        rcases List.mem_append.mp hs with hs1 | hs1
        case _ =>
          rcases List.mem_append.mp hs1 with hs2 | hs2
          · have := List.mem_of_mem_take hs2
            rcases List.mem_or_eq_of_mem_set this with hmem | heq
            · exact ih s hmem
            · rw [heq]
              exact midi_src_inv_reset true
          · have := List.mem_of_mem_drop hs2
            rcases List.mem_or_eq_of_mem_set this with hmem | heq
            · exact ih s hmem
            · rw [heq]
              exact midi_src_inv_reset true
        case _ =>
          have := List.mem_of_mem_drop hs1
          rcases List.mem_or_eq_of_mem_set this with hmem | heq
          · exact ih s hmem
          · rw [heq]
            exact midi_src_inv_reset true
  | set_dump_fd fd h ih =>
    rename_i r0
    rw [midi_reader_set_dump_fd]
    split_ifs <;> exact ih
  | set_callback cb h ih =>
    exact ih
  | close h ih =>
    rename_i r0
    rw [midi_reader_close]
    split_ifs with h1 h2
    · exact ih
    all_goals intro s hs
    all_goals simp only at hs
    all_goals rcases List.mem_map.mp hs with ⟨i, hi, heq⟩
    all_goals rw [← heq]
    all_goals split_ifs
    all_goals first
      | exact midi_src_inv_reset true
      | (by_cases hidx : i < r0.sources.length
         · rw [List.getD_eq_getElem?_getD, List.getElem?_eq_getElem hidx]
           exact ih _ (List.getElem_mem hidx)
         · rw [List.getD_eq_getElem?_getD, List.getElem?_eq_none (by omega)]
           exact midi_src_inv_reset true)
  | update start input h ih =>
    exact midi_reader_update_inv _ start input ih
  | get_next start input h ih =>
    rename_i r0
    have hu := midi_reader_update_inv r0 start input ih
    rw [midi_reader_get_next]
    rcases hml : midi_reader_update r0 start input with ⟨ok, rr, st⟩
    rw [hml] at hu
    simp only [hml]
    split_ifs
    · intro s hs
      exact hu s hs
    · exact hu
  | clear_queue h ih =>
    rename_i r0
    rw [midi_reader_clear_queue]
    split_ifs <;> exact ih
  | inject mf h ih =>
    rename_i r0
    have hs := midi_reader_inject_sources r0 mf
    intro s hsm
    rw [hs.1] at hsm
    exact ih s hsm
  | reset_stats n h ih =>
    rename_i r0
    rw [midi_reader_reset_stats]
    split_ifs with h1 h2
    · exact ih
    · exact ih
    · intro s hsm
      simp only at hsm
      rcases List.mem_or_eq_of_mem_set hsm with hmem | heq
      · exact ih s hmem
      · rw [heq]
        intro hrn
        by_cases hidx : n.toNat < r0.sources.length
        · have hmemD : r0.sources.getD n.toNat (midi_reader_reset_source false).1 ∈ r0.sources := by
            rw [List.getD_eq_getElem?_getD, List.getElem?_eq_getElem hidx, Option.getD_some]
            exact List.getElem_mem hidx
          exact ih _ hmemD hrn
        · have heq2 : r0.sources.getD n.toNat (midi_reader_reset_source false).1 = (midi_reader_reset_source false).1 := by
            rw [List.getD_eq_getElem?_getD, List.getElem?_eq_none (by omega), Option.getD_none]
          rw [heq2] at hrn ⊢
          exact midi_src_inv_reset false hrn

/-- On any source satisfying the invariant, the byte-state-machine is
unchanged by deleting the `len == 0` disjunct of the boundary parity
check: that arm is dead. -/
theorem midi_push_byte_nodead_eq (r : midi_reader_t)
    (src : midi_reader_source_t) (d : Int) (h : midi_src_inv src) :
    midi_reader_push_byte r src d = midi_reader_push_byte_nodead r src d := by
  rw [midi_reader_push_byte, midi_reader_push_byte_nodead]
  by_cases c1 : d < 0
  · rw [if_pos c1, if_pos c1]
  rw [if_neg c1, if_neg c1]
  by_cases c2 : d > 0xFF
  · rw [if_pos c2, if_pos c2]
  rw [if_neg c2, if_neg c2]
  by_cases c3 : src.current.len = MIDI_FRAME_MAX
  · rw [if_pos c3, if_pos c3]
  rw [if_neg c3, if_neg c3]
  by_cases c4 : src.running ≠ 0 ∧ d.toNat &&& 0x80 ≠ 0
  · rw [if_pos c4, if_pos c4]
    have hlen := (h c4.1).1
    by_cases c5 : ((src.current.len : Int) - 1) % 2 ≠ 0
    · rw [if_pos (Or.inr c5), if_pos c5]
    · rw [if_neg (fun hor => hor.elim (fun h0 => absurd h0 (by omega)) c5),
        if_neg c5]
  · rw [if_neg c4, if_neg c4]

/-- C9: in every reader state reachable through the public operations,
whenever running-status tracking is active on a source the in-progress
frame's accumulated length is at least 1 (so the running-status
boundary branch is never entered with length 0), and consequently the
byte-state-machine behaves identically with the `len == 0` arm of the
boundary's parity check deleted: that arm is dead code. -/
theorem midi_boundary_len_zero_dead (r : midi_reader_t)
    (h : MidiReachable r) :
    ∀ s ∈ r.sources,
      (s.running ≠ 0 → 1 ≤ s.current.len) ∧
      ∀ d : Int, midi_reader_push_byte r s d = midi_reader_push_byte_nodead r s d := by
  intro s hs
  have hinv := midi_reachable_inv r h s hs
  exact ⟨fun hrn => (hinv hrn).1, fun d => midi_push_byte_nodead_eq r s d hinv⟩

/-- Witness for C9 at a freshly initialized reader: its first slot is a
reset source, the length bound holds there, and the state machine
agrees with the dead-arm-free variant on the byte 0x90. -/
theorem midi_boundary_len_zero_dead_witness :
    ((midi_reader_reset_source false).1.running ≠ 0 →
      1 ≤ (midi_reader_reset_source false).1.current.len) ∧
    midi_reader_push_byte (midi_reader_init ⟨false, false, false⟩ none)
        (midi_reader_reset_source false).1 0x90 =
      midi_reader_push_byte_nodead (midi_reader_init ⟨false, false, false⟩ none)
        (midi_reader_reset_source false).1 0x90 := by
  have hmem : (midi_reader_reset_source false).1 ∈
      (midi_reader_init ⟨false, false, false⟩ none).sources :=
    List.mem_replicate.mpr ⟨by decide, rfl⟩
  have H := midi_boundary_len_zero_dead (midi_reader_init ⟨false, false, false⟩ none)
    (MidiReachable.init ⟨false, false, false⟩ none) (midi_reader_reset_source false).1 hmem
  exact ⟨H.1, H.2 0x90⟩
